import Mathlib

/-!
# External point-mass and solid-sphere forces of reboundx

A shallow embedding of `src/src/ext_point_mass.c` and `src/src/solid_sphere.c`.

* A C `double` is an element of a scalar type `α` that carries the operations the
  two files use (`+`, `-`, `*`, `/`, unary minus, `<`, decimal literals).  The
  definitions are written once for every such `α`; laws that need algebra are
  proved for exact arithmetic (an ordered field, or `ℝ` with the real power
  function and the real constant `π`), so rounding of IEEE doubles is outside
  the model.
* `pow` and `M_PI` come from `math.h`; they are the two fields of `Libm`.  In
  `exactMath` they are the real power function and `π`; every statement that
  uses the value of `pow(r2, -1.5)` assumes `r2 > 0`, where the real power is
  `1 / (r2 * √r2)`.
* The special values of a `double` (`±∞`, NaN) are the subject of the statements
  about `r2 = 0` (the singular point of the point-mass law, and the center of
  the sphere); there the scalar type is `Dbl`, which adds them to exact finite
  numbers.
* `N` is a C `int`; the loop runs `N.toNat` times (not at all for `N ≤ 0`).
* The particle array is a `List`; the `for` loop over `i < N` reads
  `particles[i]` and writes it back.
-/

set_option autoImplicit false
set_option linter.unusedSectionVars false

namespace Reboundx

/-! ## Data model -/

/-- The two entries of `math.h` used by the evaluators: `pow` and `M_PI`. -/
structure Libm (α : Type) where
  /-- The function `pow(x, y)`. -/
  pow : α → α → α
  /-- The constant `M_PI`. -/
  M_PI : α

/-- Modelled from the spec: the value stored under a parameter name, a named
scalar that is a `double` or an `int` (`rebx_set_param_double`,
`rebx_set_param_int`; the parameter store itself is not part of the sources). -/
inductive rebx_param_value (α : Type) where
  | REBX_TYPE_DOUBLE (value : α)
  | REBX_TYPE_INT (value : Int)
  deriving DecidableEq, Repr

/-- Modelled from the spec: the parameter list `ap` attached to a particle or to
a force, an association of names with values, most recently set name first. -/
abbrev rebx_node (β : Type) := List (String × β)

/-- Modelled from the spec: `rebx_get_param` looks a name up in a parameter list
and returns "absent" (`NULL`, here `none`) when the name is unset. -/
def rebx_get_param {β : Type} (ap : rebx_node β) (param_name : String) : Option β :=
  ap.lookup param_name

/-- The fields of `struct reb_particle` (declared in `rebound.h`): position,
velocity, acceleration accumulator, mass, radius and attached parameters. -/
structure reb_particle (α : Type) where
  x : α
  y : α
  z : α
  vx : α
  vy : α
  vz : α
  ax : α
  ay : α
  az : α
  m : α
  r : α
  ap : rebx_node (rebx_param_value α)
  deriving DecidableEq, Repr

/-- The field of `struct reb_simulation` read by the evaluators: `G`. -/
structure reb_simulation (α : Type) where
  G : α
  deriving DecidableEq, Repr

/-- The field of `struct rebx_force` read by the evaluators: the parameter list
`ap`.  The evaluators dereference every force parameter as a `double`. -/
structure rebx_force (α : Type) where
  ap : rebx_node α
  deriving DecidableEq, Repr

/-! ## The evaluators -/

section Evaluators

variable {α : Type} [Add α] [Sub α] [Mul α] [Div α] [Neg α] [LT α]
  [DecidableRel (fun a b : α => a < b)] [OfScientific α]

/-- The loop `for (int i=0; i<N; i++)` over the particle array: iteration `i`
copies `particles[i]` into `p`, and `body p` is the value of `particles[i]` at the
end of the iteration.  An index beyond the array is not touched. -/
def for_each_particle (body : reb_particle α → reb_particle α)
    (particles : List (reb_particle α)) (N : Int) : List (reb_particle α) :=
  (List.range N.toNat).foldl
    (fun particles i =>
      match particles[i]? with
      | none => particles
      | some p => particles.set i (body p))
    particles

/-- One iteration of the loop of `rebx_calculate_point_mass_force`
(`ext_point_mass.c`, lines 65-78). -/
def point_mass_iteration (lm : Libm α) (G ext_M ext_x ext_y ext_z : α)
    (p : reb_particle α) : reb_particle α :=
  match rebx_get_param p.ap "ext_enable" with
  | none => p
  | some _ =>
    let dx := p.x - ext_x
    let dy := p.y - ext_y
    let dz := p.z - ext_z
    let r2 := dx*dx + dy*dy + dz*dz
    let prefac := -G*ext_M*lm.pow r2 (-1.5)
    { p with ax := p.ax + prefac*dx, ay := p.ay + prefac*dy, az := p.az + prefac*dz }

/-- The function `rebx_calculate_point_mass_force` of `ext_point_mass.c`. -/
def rebx_calculate_point_mass_force (lm : Libm α) (sim : reb_simulation α)
    (particles : List (reb_particle α)) (N : Int) (ext_M ext_x ext_y ext_z : α) :
    List (reb_particle α) :=
  let G := sim.G
  for_each_particle (point_mass_iteration lm G ext_M ext_x ext_y ext_z) particles N

/-- The function `rebx_external_point_mass_force` of `ext_point_mass.c`. -/
def rebx_external_point_mass_force (lm : Libm α) (sim : reb_simulation α)
    (force : rebx_force α) (particles : List (reb_particle α)) (N : Int) :
    List (reb_particle α) :=
  match rebx_get_param force.ap "ext_M", rebx_get_param force.ap "ext_x",
        rebx_get_param force.ap "ext_y", rebx_get_param force.ap "ext_z" with
  | some ext_M, some ext_x, some ext_y, some ext_z =>
    rebx_calculate_point_mass_force lm sim particles N ext_M ext_x ext_y ext_z
  | _, _, _, _ => particles

/-- One iteration of the loop of `rebx_calculate_sphere_force`
(`solid_sphere.c`, lines 70-90). -/
def sphere_iteration (lm : Libm α) (G rad M R3 x_cen y_cen z_cen : α)
    (p : reb_particle α) : reb_particle α :=
  match rebx_get_param p.ap "ext_enable" with
  | none => p
  | some _ =>
    let dx := p.x - x_cen
    let dy := p.y - y_cen
    let dz := p.z - z_cen
    let r2 := dx*dx + dy*dy + dz*dz
    let prefac := if r2 < (rad*rad) then -G*M/R3 else -G*M*lm.pow r2 (-1.5)
    { p with ax := p.ax + prefac*dx, ay := p.ay + prefac*dy, az := p.az + prefac*dz }

/-- The function `rebx_calculate_sphere_force` of `solid_sphere.c`. -/
def rebx_calculate_sphere_force (lm : Libm α) (sim : reb_simulation α)
    (particles : List (reb_particle α)) (N : Int) (rad rho x_cen y_cen z_cen : α) :
    List (reb_particle α) :=
  let G := sim.G
  let R3 := rad*rad*rad
  let M := rho * 4.0/3.0 * lm.M_PI * R3
  for_each_particle (sphere_iteration lm G rad M R3 x_cen y_cen z_cen) particles N

/-- The function `rebx_sphere_force` of `solid_sphere.c`. -/
def rebx_sphere_force (lm : Libm α) (sim : reb_simulation α)
    (force : rebx_force α) (particles : List (reb_particle α)) (N : Int) :
    List (reb_particle α) :=
  match rebx_get_param force.ap "rad", rebx_get_param force.ap "rho",
        rebx_get_param force.ap "x_cen", rebx_get_param force.ap "y_cen",
        rebx_get_param force.ap "z_cen" with
  | some rad, some rho, some x_cen, some y_cen, some z_cen =>
    rebx_calculate_sphere_force lm sim particles N rad rho x_cen y_cen z_cen
  | _, _, _, _, _ => particles

end Evaluators

/-! ## Exact arithmetic -/

/-- The exact reading of `math.h`: `pow` is the real power function and `M_PI`
is the number `π`. -/
noncomputable def exactMath : Libm ℝ where
  pow := fun x y => x ^ y
  M_PI := Real.pi

/-- The Euclidean length of the vector `(vx, vy, vz)`. -/
noncomputable def magnitude (vx vy vz : ℝ) : ℝ :=
  Real.sqrt (vx*vx + vy*vy + vz*vz)

/-- The squared distance `r2 = dx*dx + dy*dy + dz*dz` of the particle `p` from
the point `(x, y, z)`, as both loops compute it. -/
def squared_distance {α : Type} [Add α] [Sub α] [Mul α] (p : reb_particle α)
    (x y z : α) : α :=
  (p.x - x)*(p.x - x) + (p.y - y)*(p.y - y) + (p.z - z)*(p.z - z)

/-- The particle `p` with its acceleration accumulator set to zero. -/
def clear_acceleration {α : Type} [Zero α] (p : reb_particle α) : reb_particle α :=
  { p with ax := 0, ay := 0, az := 0 }

/-- The loop body `body` adds to `(ax, ay, az)` a vector `c p` that does not depend
on the accumulator, and changes nothing else. -/
def adds_contribution {α : Type} [Add α] (body : reb_particle α → reb_particle α) : Prop :=
  ∃ c : reb_particle α → α × α × α,
    (∀ (p : reb_particle α) (a b d : α), c { p with ax := a, ay := b, az := d } = c p) ∧
    ∀ p : reb_particle α,
      body p = { p with ax := p.ax + (c p).1, ay := p.ay + (c p).2.1, az := p.az + (c p).2.2 }

/-- The acceleration accumulator `(ax, ay, az)` of a particle. -/
def acceleration {α : Type} (p : reb_particle α) : α × α × α :=
  (p.ax, p.ay, p.az)

/-- Modelled from the spec: the particle after `rebx_set_param_int` has stored the
integer `value` under `ext_enable` in its parameter list; a later lookup of
`ext_enable` finds `value`. -/
def with_enable {α : Type} (value : Int) (p : reb_particle α) : reb_particle α :=
  { p with ap := ("ext_enable", rebx_param_value.REBX_TYPE_INT value) :: p.ap }

/-- The fields of a particle other than `ax`, `ay`, `az` agree in `p` and `q`. -/
def same_outside_acceleration {α : Type} (p q : reb_particle α) : Prop :=
  q.x = p.x ∧ q.y = p.y ∧ q.z = p.z ∧ q.vx = p.vx ∧ q.vy = p.vy ∧ q.vz = p.vz ∧
    q.m = p.m ∧ q.r = p.r ∧ q.ap = p.ap

/-! ## The special values of a `double` -/

/-- A `double` together with its special values: a finite number, `+∞`
(`inf false`), `-∞` (`inf true`) or NaN.  Finite numbers are kept exact (no
rounding, no overflow, a single zero); the special values follow IEEE 754. -/
inductive Dbl where
  | finite (value : ℚ)
  | inf (negative : Bool)
  | nan
  deriving DecidableEq

namespace Dbl

/-- Unary minus. -/
def neg : Dbl → Dbl
  | finite a => finite (-a)
  | inf s => inf (!s)
  | nan => nan

/-- Addition: `∞ + (-∞)` is NaN, and NaN propagates. -/
def add : Dbl → Dbl → Dbl
  | finite a, finite b => finite (a + b)
  | finite _, inf t => inf t
  | inf s, finite _ => inf s
  | inf s, inf t => if s = t then inf s else nan
  | _, _ => nan

/-- Subtraction, `a + (-b)`. -/
def sub (a b : Dbl) : Dbl := add a (neg b)

/-- Multiplication: `0 · ∞` is NaN, and NaN propagates. -/
def mul : Dbl → Dbl → Dbl
  | finite a, finite b => finite (a * b)
  | finite a, inf t => if a = 0 then nan else inf (decide (a < 0) != t)
  | inf s, finite b => if b = 0 then nan else inf (s != decide (b < 0))
  | inf s, inf t => inf (s != t)
  | _, _ => nan

/-- Division: `0 / 0` and `∞ / ∞` are NaN, a non-zero number over zero is
infinite, and NaN propagates. -/
def div : Dbl → Dbl → Dbl
  | finite a, finite b =>
    if b = 0 then (if a = 0 then nan else inf (decide (a < 0))) else finite (a / b)
  | finite _, inf _ => finite 0
  | inf s, finite b => inf (s != decide (b < 0))
  | inf _, inf _ => nan
  | _, _ => nan

/-- The comparison `a < b`; it is false when an operand is NaN. -/
def lt : Dbl → Dbl → Bool
  | finite a, finite b => decide (a < b)
  | finite _, inf t => !t
  | inf s, finite _ => s
  | inf s, inf t => s && !t
  | _, _ => false

/-- The test `isfinite`: neither infinite nor NaN. -/
def isFinite : Dbl → Bool
  | finite _ => true
  | _ => false

end Dbl

instance : Neg Dbl := ⟨Dbl.neg⟩

instance : Add Dbl := ⟨Dbl.add⟩

instance : Sub Dbl := ⟨Dbl.sub⟩

instance : Mul Dbl := ⟨Dbl.mul⟩

instance : Div Dbl := ⟨Dbl.div⟩

instance : LT Dbl := ⟨fun a b => Dbl.lt a b = true⟩

instance : DecidableRel (fun a b : Dbl => a < b) :=
  fun a b => inferInstanceAs (Decidable (Dbl.lt a b = true))

instance : OfScientific Dbl :=
  ⟨fun mantissa exponentSign decimalExponent =>
    Dbl.finite (OfScientific.ofScientific mantissa exponentSign decimalExponent)⟩

/-- Modelled from the spec: a `math.h` of which only the singular point of `pow`
is known, `pow(0, y) = +∞` for `y < 0` ("if r2 is exactly zero, the law is
singular"); no other value of `pow` is modelled (NaN stands for it), and `M_PI` is
the `double` nearest to `π`. -/
def singular_libm : Libm Dbl where
  pow := fun x y => if x = Dbl.finite 0 ∧ Dbl.lt y (Dbl.finite 0) = true then Dbl.inf false
    else Dbl.nan
  M_PI := Dbl.finite (884279719003555 / 281474976710656)

/-! ## The example scenario of `examples/solid_sphere_c/problem.c` -/

section Scenario

variable (α : Type) [OfScientific α]

/-- The simulation made by `reb_simulation_create`, in default units (`G = 1`). -/
def example_sim : reb_simulation α := ⟨1.0⟩

/-- The star of `problem.c`: `{0}` with `m = 1.`; it carries no parameter. -/
def star : reb_particle α :=
  { x := 0.0, y := 0.0, z := 0.0, vx := 0.0, vy := 0.0, vz := 0.0,
    ax := 0.0, ay := 0.0, az := 0.0, m := 1.0, r := 0.0, ap := [] }

/-- The planet of `problem.c`: `{0}` with `x = 1.`, `vy = 1.1`, and the integer
parameter `ext_enable` set to `1`. -/
def planet : reb_particle α :=
  { x := 1.0, y := 0.0, z := 0.0, vx := 0.0, vy := 1.1, vz := 0.0,
    ax := 0.0, ay := 0.0, az := 0.0, m := 0.0, r := 0.0,
    ap := [("ext_enable", rebx_param_value.REBX_TYPE_INT 1)] }

/-- The force `sphere` of `problem.c` after its five `rebx_set_param_double`
calls. -/
def sphere : rebx_force α :=
  ⟨[("z_cen", 0.0), ("y_cen", 0.0), ("x_cen", 0.1), ("rad", 0.1), ("rho", 10.0)]⟩

/-- The force `sphere` of `problem.c` without its parameter `rho`. -/
def sphere_without_rho : rebx_force α :=
  ⟨[("z_cen", 0.0), ("y_cen", 0.0), ("x_cen", 0.1), ("rad", 0.1)]⟩

/-- A point-mass force: a source of mass `1` at the origin. -/
def unit_point_mass : rebx_force α :=
  ⟨[("ext_z", 0.0), ("ext_y", 0.0), ("ext_x", 0.0), ("ext_M", 1.0)]⟩

/-- The force `unit_point_mass` without its parameter `ext_M`. -/
def point_mass_without_M : rebx_force α :=
  ⟨[("ext_z", 0.0), ("ext_y", 0.0), ("ext_x", 0.0)]⟩

/-- A point-mass force whose source has the negative mass `-1`, at the origin. -/
def negative_point_mass [Neg α] : rebx_force α :=
  ⟨[("ext_z", 0.0), ("ext_y", 0.0), ("ext_x", 0.0), ("ext_M", -1.0)]⟩

/-- The force `sphere` of `problem.c` with another radius and density. -/
def sphere_with (rad rho : α) : rebx_force α :=
  ⟨[("z_cen", 0.0), ("y_cen", 0.0), ("x_cen", 0.1), ("rad", rad), ("rho", rho)]⟩

/-- A point-mass force with a source of mass `ext_M` at the center of `sphere`. -/
def point_mass_with (ext_M : α) : rebx_force α :=
  ⟨[("ext_z", 0.0), ("ext_y", 0.0), ("ext_x", 0.1), ("ext_M", ext_M)]⟩

/-- The planet of `problem.c` moved to `(x, 0, 0)`. -/
def planet_at (x : α) : reb_particle α :=
  { planet α with x := x }

/-- The planet of `problem.c` with a non-zero acceleration accumulator. -/
def accelerated_planet : reb_particle α :=
  { planet α with ax := 0.5, ay := 0.25, az := 0.125 }

/-- The planet of `problem.c` without any attached parameter. -/
def bare_planet : reb_particle α :=
  { planet α with ap := [] }

/-- A point-mass force configured under the names of the documentation block of
`ext_point_mass.c`: `M_ext`, `x_ext`, `y_ext`, and `z_ext` for the z-position. -/
def documented_point_mass : rebx_force α :=
  ⟨[("z_ext", 0.0), ("y_ext", 0.0), ("x_ext", 0.0), ("M_ext", 1.0)]⟩

/-- The force `sphere` of `problem.c` with the documented parameter `b_max` set
as well. -/
def sphere_with_b_max (b_max : α) : rebx_force α :=
  ⟨("b_max", b_max) :: (sphere α).ap⟩

end Scenario

/-! ## The loop -/

section Loop

variable {α : Type}

/-- After the loop, the entry at an index `j < N` is the body applied to the
original entry, and every other entry is the original one. -/
theorem getElem?_for_each_particle (body : reb_particle α → reb_particle α)
    (particles : List (reb_particle α)) (N : Int) (j : Nat) :
    (for_each_particle body particles N)[j]? =
      if j < N.toNat then particles[j]?.map body else particles[j]? := by
  unfold for_each_particle
  induction N.toNat generalizing j with
  | zero => simp
  | succ n ih =>
    rw [List.range_succ, List.foldl_append]
    simp only [List.foldl_cons, List.foldl_nil]
    have hn := ih n
    simp only [lt_self_iff_false, if_false] at hn
    rw [hn]
    cases hp : particles[n]? with
    | none =>
      simp only
      rw [ih j]
      by_cases hj : j < n
      · simp [hj, Nat.lt_succ_of_lt hj]
      · by_cases hjn : j = n
        · subst hjn; simp [hp]
        · have : ¬ j < n + 1 := by omega
          simp [hj, this]
    | some p =>
      simp only
      rw [List.getElem?_set]
      by_cases hjn : n = j
      · subst hjn
        have hlen : n < (List.foldl (fun particles i =>
            match particles[i]? with
            | none => particles
            | some p => particles.set i (body p)) particles (List.range n)).length := by
          by_contra hc
          have := List.getElem?_eq_none (Nat.le_of_not_lt hc)
          rw [hn, hp] at this
          exact Option.noConfusion this
        simp [hlen, hp]
      · rw [if_neg hjn, ih j]
        by_cases hj : j < n
        · simp [hj, Nat.lt_succ_of_lt hj]
        · have : ¬ j < n + 1 := by omega
          simp [hj, this]

end Loop

/-! ## Facts about one iteration -/

section Iteration

variable {α : Type} [Add α] [Sub α] [Mul α] [Div α] [Neg α] [LT α]
  [DecidableRel (fun a b : α => a < b)] [OfScientific α]

theorem length_for_each_particle (body : reb_particle α → reb_particle α)
    (particles : List (reb_particle α)) (N : Int) :
    (for_each_particle body particles N).length = particles.length := by
  unfold for_each_particle
  generalize List.range N.toNat = is
  induction is generalizing particles with
  | nil => rfl
  | cons i is ih =>
    rw [List.foldl_cons, ih]
    cases particles[i]? <;> simp

theorem point_mass_iteration_of_absent (lm : Libm α) (G ext_M ext_x ext_y ext_z : α)
    (p : reb_particle α) (h : rebx_get_param p.ap "ext_enable" = none) :
    point_mass_iteration lm G ext_M ext_x ext_y ext_z p = p := by
  simp [point_mass_iteration, h]

theorem sphere_iteration_of_absent (lm : Libm α) (G rad M R3 x_cen y_cen z_cen : α)
    (p : reb_particle α) (h : rebx_get_param p.ap "ext_enable" = none) :
    sphere_iteration lm G rad M R3 x_cen y_cen z_cen p = p := by
  simp [sphere_iteration, h]

theorem point_mass_iteration_frame (lm : Libm α) (G ext_M ext_x ext_y ext_z : α)
    (p : reb_particle α) :
    same_outside_acceleration p (point_mass_iteration lm G ext_M ext_x ext_y ext_z p) := by
  unfold point_mass_iteration same_outside_acceleration
  cases rebx_get_param p.ap "ext_enable" <;> simp

theorem sphere_iteration_frame (lm : Libm α) (G rad M R3 x_cen y_cen z_cen : α)
    (p : reb_particle α) :
    same_outside_acceleration p (sphere_iteration lm G rad M R3 x_cen y_cen z_cen p) := by
  unfold sphere_iteration same_outside_acceleration
  cases rebx_get_param p.ap "ext_enable" <;> simp

theorem same_outside_acceleration_refl (p : reb_particle α) :
    same_outside_acceleration p p := by
  simp [same_outside_acceleration]

/-- Every evaluator call is the identity or one run of the loop. -/
theorem point_mass_force_cases (lm : Libm α) (sim : reb_simulation α) (force : rebx_force α)
    (particles : List (reb_particle α)) (N : Int) :
    rebx_external_point_mass_force lm sim force particles N = particles ∨
    ∃ ext_M ext_x ext_y ext_z,
      rebx_get_param force.ap "ext_M" = some ext_M ∧
      rebx_get_param force.ap "ext_x" = some ext_x ∧
      rebx_get_param force.ap "ext_y" = some ext_y ∧
      rebx_get_param force.ap "ext_z" = some ext_z ∧
      rebx_external_point_mass_force lm sim force particles N =
        for_each_particle (point_mass_iteration lm sim.G ext_M ext_x ext_y ext_z)
          particles N := by
  unfold rebx_external_point_mass_force rebx_calculate_point_mass_force
  cases rebx_get_param force.ap "ext_M" <;> cases rebx_get_param force.ap "ext_x" <;>
    cases rebx_get_param force.ap "ext_y" <;> cases rebx_get_param force.ap "ext_z" <;>
    simp

theorem sphere_force_cases (lm : Libm α) (sim : reb_simulation α) (force : rebx_force α)
    (particles : List (reb_particle α)) (N : Int) :
    rebx_sphere_force lm sim force particles N = particles ∨
    ∃ rad rho x_cen y_cen z_cen,
      rebx_get_param force.ap "rad" = some rad ∧
      rebx_get_param force.ap "rho" = some rho ∧
      rebx_get_param force.ap "x_cen" = some x_cen ∧
      rebx_get_param force.ap "y_cen" = some y_cen ∧
      rebx_get_param force.ap "z_cen" = some z_cen ∧
      rebx_sphere_force lm sim force particles N =
        for_each_particle
          (sphere_iteration lm sim.G rad (rho * 4.0/3.0 * lm.M_PI * (rad*rad*rad))
            (rad*rad*rad) x_cen y_cen z_cen)
          particles N := by
  unfold rebx_sphere_force rebx_calculate_sphere_force
  cases rebx_get_param force.ap "rad" <;> cases rebx_get_param force.ap "rho" <;>
    cases rebx_get_param force.ap "x_cen" <;> cases rebx_get_param force.ap "y_cen" <;>
    cases rebx_get_param force.ap "z_cen" <;> simp

/-- A loop whose body keeps the non-acceleration fields keeps them in every
entry, and keeps the number and order of the entries. -/
theorem forall₂_for_each_particle (body : reb_particle α → reb_particle α)
    (hbody : ∀ p, same_outside_acceleration p (body p))
    (particles : List (reb_particle α)) (N : Int) :
    List.Forall₂ same_outside_acceleration particles
      (for_each_particle body particles N) := by
  rw [List.forall₂_iff_get]
  refine ⟨(length_for_each_particle body particles N).symm, ?_⟩
  intro i h₁ h₂
  have h := getElem?_for_each_particle body particles N i
  rw [List.getElem?_eq_getElem h₂, List.getElem?_eq_getElem h₁] at h
  simp only [List.get_eq_getElem]
  by_cases hi : i < N.toNat
  · simp only [hi, if_true, Option.map_some', Option.some.injEq] at h
    rw [h]; exact hbody _
  · simp only [hi, if_false, Option.some.injEq] at h
    rw [h]; exact same_outside_acceleration_refl _

end Iteration

/-! ## Claims -/

section Generic

variable {α : Type} [Add α] [Sub α] [Mul α] [Div α] [Neg α] [LT α]
  [DecidableRel (fun a b : α => a < b)] [OfScientific α]

/-- C5. No-op on incomplete configuration: when one of `ext_M`, `ext_x`, `ext_y`,
`ext_z` is absent on the force, `rebx_external_point_mass_force` returns the
particle array unchanged, and when one of `rad`, `rho`, `x_cen`, `y_cen`, `z_cen`
is absent, `rebx_sphere_force` returns it unchanged, whatever the other parameters
and the enable flags are. -/
theorem C5_noop_on_incomplete_configuration (lm : Libm α) (sim : reb_simulation α)
    (force : rebx_force α) (particles : List (reb_particle α)) (N : Int) :
    ((rebx_get_param force.ap "ext_M" = none ∨ rebx_get_param force.ap "ext_x" = none ∨
        rebx_get_param force.ap "ext_y" = none ∨ rebx_get_param force.ap "ext_z" = none) →
      rebx_external_point_mass_force lm sim force particles N = particles) ∧
    ((rebx_get_param force.ap "rad" = none ∨ rebx_get_param force.ap "rho" = none ∨
        rebx_get_param force.ap "x_cen" = none ∨ rebx_get_param force.ap "y_cen" = none ∨
        rebx_get_param force.ap "z_cen" = none) →
      rebx_sphere_force lm sim force particles N = particles) := by
  constructor
  · intro h
    unfold rebx_external_point_mass_force
    rcases h with h | h | h | h <;> rw [h] <;>
      cases rebx_get_param force.ap "ext_M" <;> cases rebx_get_param force.ap "ext_x" <;>
      cases rebx_get_param force.ap "ext_y" <;> cases rebx_get_param force.ap "ext_z" <;>
      rfl
  · intro h
    unfold rebx_sphere_force
    rcases h with h | h | h | h | h <;> rw [h] <;>
      cases rebx_get_param force.ap "rad" <;> cases rebx_get_param force.ap "rho" <;>
      cases rebx_get_param force.ap "x_cen" <;> cases rebx_get_param force.ap "y_cen" <;>
      cases rebx_get_param force.ap "z_cen" <;> rfl

/-- C5, witness: the scenario with `ext_M` removed from a point-mass force and
with `rho` removed from the sphere force. -/
theorem C5_noop_on_incomplete_configuration_witness :
    (rebx_get_param (point_mass_without_M ℝ).ap "ext_M" = none ∧
      rebx_external_point_mass_force exactMath (example_sim ℝ) (point_mass_without_M ℝ)
        [star ℝ, planet ℝ] 2 = [star ℝ, planet ℝ]) ∧
    (rebx_get_param (sphere_without_rho ℝ).ap "rho" = none ∧
      rebx_sphere_force exactMath (example_sim ℝ) (sphere_without_rho ℝ)
        [star ℝ, planet ℝ] 2 = [star ℝ, planet ℝ]) :=
  ⟨⟨rfl, (C5_noop_on_incomplete_configuration exactMath (example_sim ℝ) (point_mass_without_M ℝ)
      [star ℝ, planet ℝ] 2).1 (Or.inl rfl)⟩,
   ⟨rfl, (C5_noop_on_incomplete_configuration exactMath (example_sim ℝ) (sphere_without_rho ℝ)
      [star ℝ, planet ℝ] 2).2 (Or.inr (Or.inl rfl))⟩⟩

/-- C6. Opt-out: a particle on which `ext_enable` is absent is the same particle
(in particular has the same `ax`, `ay`, `az`) after `rebx_external_point_mass_force`
and after `rebx_sphere_force`, for every force configuration, every `N` and
whatever the other particles of the array carry. -/
theorem C6_opt_out (lm : Libm α) (sim : reb_simulation α) (force : rebx_force α)
    (particles : List (reb_particle α)) (N : Int) (i : Nat) (p : reb_particle α)
    (hp : particles[i]? = some p) (h : rebx_get_param p.ap "ext_enable" = none) :
    (rebx_external_point_mass_force lm sim force particles N)[i]? = some p ∧
    (rebx_sphere_force lm sim force particles N)[i]? = some p := by
  constructor
  · rcases point_mass_force_cases lm sim force particles N with e | ⟨M, x, y, z, -, -, -, -, e⟩
    · rw [e, hp]
    · rw [e, getElem?_for_each_particle, hp]
      simp [point_mass_iteration_of_absent lm sim.G M x y z p h]
  · rcases sphere_force_cases lm sim force particles N with e | ⟨a, b, x, y, z, -, -, -, -, -, e⟩
    · rw [e, hp]
    · rw [e, getElem?_for_each_particle, hp]
      simp [sphere_iteration_of_absent lm sim.G _ _ _ x y z p h]

/-- C6, witness: the star of the scenario, which carries no `ext_enable`, next to
the enabled planet, under complete configurations. -/
theorem C6_opt_out_witness :
    ([star ℝ, planet ℝ] : List (reb_particle ℝ))[0]? = some (star ℝ) ∧
    rebx_get_param (star ℝ).ap "ext_enable" = none ∧
    (rebx_external_point_mass_force exactMath (example_sim ℝ) (unit_point_mass ℝ)
      [star ℝ, planet ℝ] 2)[0]? = some (star ℝ) ∧
    (rebx_sphere_force exactMath (example_sim ℝ) (sphere ℝ) [star ℝ, planet ℝ] 2)[0]? =
      some (star ℝ) :=
  ⟨rfl, rfl,
    (C6_opt_out exactMath (example_sim ℝ) (unit_point_mass ℝ) [star ℝ, planet ℝ] 2 0 (star ℝ)
      rfl rfl).1,
    (C6_opt_out exactMath (example_sim ℝ) (sphere ℝ) [star ℝ, planet ℝ] 2 0 (star ℝ)
      rfl rfl).2⟩

/-- C8. Frame: the array returned by `rebx_external_point_mass_force` and by
`rebx_sphere_force` has the particles of the input array in the same number and
order, each with its position, velocity, mass, radius and attached parameters
unchanged; only `ax`, `ay`, `az` may differ.  (The simulation and the force are
arguments that the evaluators only read: the state they return is the array.) -/
theorem C8_frame (lm : Libm α) (sim : reb_simulation α) (force : rebx_force α)
    (particles : List (reb_particle α)) (N : Int) :
    List.Forall₂ same_outside_acceleration particles
      (rebx_external_point_mass_force lm sim force particles N) ∧
    List.Forall₂ same_outside_acceleration particles
      (rebx_sphere_force lm sim force particles N) := by
  have hrefl : List.Forall₂ same_outside_acceleration particles particles :=
    List.forall₂_same.mpr (fun p _ => same_outside_acceleration_refl p)
  constructor
  · rcases point_mass_force_cases lm sim force particles N with e | ⟨M, x, y, z, -, -, -, -, e⟩
    · rw [e]; exact hrefl
    · rw [e]
      exact forall₂_for_each_particle _ (point_mass_iteration_frame lm sim.G M x y z) _ _
  · rcases sphere_force_cases lm sim force particles N with e | ⟨a, b, x, y, z, -, -, -, -, -, e⟩
    · rw [e]; exact hrefl
    · rw [e]
      exact forall₂_for_each_particle _ (sphere_iteration_frame lm sim.G _ _ _ x y z) _ _

end Generic

/-! ## Lookup of a complete configuration -/

section Complete

variable {α : Type} [Add α] [Sub α] [Mul α] [Div α] [Neg α] [LT α]
  [DecidableRel (fun a b : α => a < b)] [OfScientific α]

theorem getElem?_point_mass_force (lm : Libm α) (sim : reb_simulation α)
    (force : rebx_force α) (particles : List (reb_particle α)) (N : Int)
    (M sx sy sz : α)
    (hM : rebx_get_param force.ap "ext_M" = some M)
    (hx : rebx_get_param force.ap "ext_x" = some sx)
    (hy : rebx_get_param force.ap "ext_y" = some sy)
    (hz : rebx_get_param force.ap "ext_z" = some sz) (i : Nat) :
    (rebx_external_point_mass_force lm sim force particles N)[i]? =
      if i < N.toNat then particles[i]?.map (point_mass_iteration lm sim.G M sx sy sz)
      else particles[i]? := by
  unfold rebx_external_point_mass_force rebx_calculate_point_mass_force
  simp only [hM, hx, hy, hz]
  exact getElem?_for_each_particle _ _ _ _

theorem getElem?_sphere_force (lm : Libm α) (sim : reb_simulation α)
    (force : rebx_force α) (particles : List (reb_particle α)) (N : Int)
    (rad rho cx cy cz : α)
    (hrad : rebx_get_param force.ap "rad" = some rad)
    (hrho : rebx_get_param force.ap "rho" = some rho)
    (hx : rebx_get_param force.ap "x_cen" = some cx)
    (hy : rebx_get_param force.ap "y_cen" = some cy)
    (hz : rebx_get_param force.ap "z_cen" = some cz) (i : Nat) :
    (rebx_sphere_force lm sim force particles N)[i]? =
      if i < N.toNat then
        particles[i]?.map
          (sphere_iteration lm sim.G rad (rho * 4.0/3.0 * lm.M_PI * (rad*rad*rad))
            (rad*rad*rad) cx cy cz)
      else particles[i]? := by
  unfold rebx_sphere_force rebx_calculate_sphere_force
  simp only [hrad, hrho, hx, hy, hz]
  exact getElem?_for_each_particle _ _ _ _

theorem point_mass_iteration_of_present (lm : Libm α) (G M sx sy sz : α)
    (p : reb_particle α) (h : rebx_get_param p.ap "ext_enable" ≠ none) :
    point_mass_iteration lm G M sx sy sz p =
      { p with
        ax := p.ax + -G*M*lm.pow (squared_distance p sx sy sz) (-1.5) * (p.x - sx)
        ay := p.ay + -G*M*lm.pow (squared_distance p sx sy sz) (-1.5) * (p.y - sy)
        az := p.az + -G*M*lm.pow (squared_distance p sx sy sz) (-1.5) * (p.z - sz) } := by
  unfold point_mass_iteration squared_distance
  cases hq : rebx_get_param p.ap "ext_enable" with
  | none => exact absurd hq h
  | some v => rfl

theorem sphere_iteration_of_present (lm : Libm α) (G rad M R3 cx cy cz : α)
    (p : reb_particle α) (h : rebx_get_param p.ap "ext_enable" ≠ none) :
    sphere_iteration lm G rad M R3 cx cy cz p =
      { p with
        ax := p.ax + (if squared_distance p cx cy cz < rad*rad then -G*M/R3
                else -G*M*lm.pow (squared_distance p cx cy cz) (-1.5)) * (p.x - cx)
        ay := p.ay + (if squared_distance p cx cy cz < rad*rad then -G*M/R3
                else -G*M*lm.pow (squared_distance p cx cy cz) (-1.5)) * (p.y - cy)
        az := p.az + (if squared_distance p cx cy cz < rad*rad then -G*M/R3
                else -G*M*lm.pow (squared_distance p cx cy cz) (-1.5)) * (p.z - cz) } := by
  unfold sphere_iteration squared_distance
  cases hq : rebx_get_param p.ap "ext_enable" with
  | none => exact absurd hq h
  | some v => rfl

end Complete

/-! ## Real arithmetic -/

theorem rpow_neg_three_halves (r2 : ℝ) (h : 0 < r2) :
    r2 ^ (-1.5 : ℝ) = 1 / (r2 * Real.sqrt r2) := by
  have e : (-1.5 : ℝ) = -(1 + 1/2) := by norm_num
  rw [e, Real.rpow_neg h.le, Real.rpow_add h, Real.rpow_one, ← Real.sqrt_eq_rpow, one_div]

theorem magnitude_smul (k vx vy vz : ℝ) :
    magnitude (k*vx) (k*vy) (k*vz) = |k| * Real.sqrt (vx*vx + vy*vy + vz*vz) := by
  unfold magnitude
  have : (k*vx)*(k*vx) + (k*vy)*(k*vy) + (k*vz)*(k*vz) = k^2 * (vx*vx + vy*vy + vz*vz) := by
    ring
  rw [this, Real.sqrt_mul (sq_nonneg k), Real.sqrt_sq_eq_abs]

/-- The length of the inverse-cube vector `-G M r2^(-1.5) (dx, dy, dz)` is
`|G M| / r2`. -/
theorem magnitude_inverse_cube (G M dx dy dz : ℝ) (h : 0 < dx*dx + dy*dy + dz*dz) :
    magnitude (-G*M * (dx*dx + dy*dy + dz*dz) ^ (-1.5 : ℝ) * dx)
        (-G*M * (dx*dx + dy*dy + dz*dz) ^ (-1.5 : ℝ) * dy)
        (-G*M * (dx*dx + dy*dy + dz*dz) ^ (-1.5 : ℝ) * dz) =
      |G*M| / (dx*dx + dy*dy + dz*dz) := by
  rw [magnitude_smul, rpow_neg_three_halves _ h]
  have hs : 0 < Real.sqrt (dx*dx + dy*dy + dz*dz) := Real.sqrt_pos.mpr h
  rw [abs_mul, neg_mul, abs_neg, abs_of_pos (by positivity : (0:ℝ) < 1 / _)]
  field_simp
  ring

theorem add_sub_self_left (a k : ℝ) : a + k - a = k := add_sub_cancel_left a k

/-! ## Lookups in the scenario -/

theorem planet_enabled (α : Type) [OfScientific α] :
    rebx_get_param (planet α).ap "ext_enable" ≠ none := by
  simp [rebx_get_param, planet, List.lookup]

theorem star_not_enabled (α : Type) [OfScientific α] :
    rebx_get_param (star α).ap "ext_enable" = none := rfl

theorem squared_distance_planet_origin :
    squared_distance (planet ℝ) 0.0 0.0 0.0 = 1 := by
  simp [squared_distance, planet]
  norm_num

/-- C1 (as amended). Point-mass law: with `ext_M = M` and the source position
`(sx, sy, sz)` present on the force, a particle `p` at an index below `N` that
carries `ext_enable` and lies at squared distance `r2 > 0` from the source gets
added to `(ax, ay, az)` the vector `-G M r2^(-1.5) (dx, dy, dz)` with
`(dx, dy, dz)` its position minus the source position.  The length of this vector
is `|G M| / r2`, and the vector is `G M / r2` times the unit vector from the
particle to the source (so it points to the source when `G M > 0`). -/
theorem C1_point_mass_law (sim : reb_simulation ℝ) (force : rebx_force ℝ)
    (particles : List (reb_particle ℝ)) (N : Int) (M sx sy sz : ℝ)
    (hM : rebx_get_param force.ap "ext_M" = some M)
    (hx : rebx_get_param force.ap "ext_x" = some sx)
    (hy : rebx_get_param force.ap "ext_y" = some sy)
    (hz : rebx_get_param force.ap "ext_z" = some sz)
    (i : Nat) (hi : (i : Int) < N) (p : reb_particle ℝ) (hp : particles[i]? = some p)
    (hen : rebx_get_param p.ap "ext_enable" ≠ none)
    (hr : 0 < squared_distance p sx sy sz) :
    ∃ q, (rebx_external_point_mass_force exactMath sim force particles N)[i]? = some q ∧
      (q.ax - p.ax = -sim.G*M*(squared_distance p sx sy sz) ^ (-1.5 : ℝ) * (p.x - sx) ∧
       q.ay - p.ay = -sim.G*M*(squared_distance p sx sy sz) ^ (-1.5 : ℝ) * (p.y - sy) ∧
       q.az - p.az = -sim.G*M*(squared_distance p sx sy sz) ^ (-1.5 : ℝ) * (p.z - sz)) ∧
      magnitude (q.ax - p.ax) (q.ay - p.ay) (q.az - p.az) =
        |sim.G*M| / squared_distance p sx sy sz ∧
      (q.ax - p.ax = sim.G*M / squared_distance p sx sy sz *
          ((sx - p.x) / Real.sqrt (squared_distance p sx sy sz)) ∧
       q.ay - p.ay = sim.G*M / squared_distance p sx sy sz *
          ((sy - p.y) / Real.sqrt (squared_distance p sx sy sz)) ∧
       q.az - p.az = sim.G*M / squared_distance p sx sy sz *
          ((sz - p.z) / Real.sqrt (squared_distance p sx sy sz))) := by
  have hi' : i < N.toNat := by omega
  refine ⟨point_mass_iteration exactMath sim.G M sx sy sz p, ?_, ?_⟩
  · rw [getElem?_point_mass_force exactMath sim force particles N M sx sy sz hM hx hy hz i,
      if_pos hi', hp, Option.map_some']
  · rw [point_mass_iteration_of_present _ _ _ _ _ _ _ hen]
    have hs : Real.sqrt (squared_distance p sx sy sz) ≠ 0 := (Real.sqrt_pos.mpr hr).ne'
    have hpow := rpow_neg_three_halves _ hr
    have hmag := magnitude_inverse_cube sim.G M (p.x - sx) (p.y - sy) (p.z - sz) hr
    refine ⟨⟨add_sub_self_left _ _, add_sub_self_left _ _, add_sub_self_left _ _⟩, ?_, ?_⟩
    · simp only [add_sub_self_left]
      exact hmag
    · simp only [add_sub_self_left, exactMath]
      rw [hpow]
      have hne : squared_distance p sx sy sz ≠ 0 := hr.ne'
      refine ⟨?_, ?_, ?_⟩ <;> field_simp <;> ring

/-- C1, witness: the planet of the scenario under a unit point mass at the
origin. -/
theorem C1_point_mass_law_witness :
    rebx_get_param (planet ℝ).ap "ext_enable" ≠ none ∧
    0 < squared_distance (planet ℝ) 0.0 0.0 0.0 ∧
    ∃ q, (rebx_external_point_mass_force exactMath (example_sim ℝ) (unit_point_mass ℝ)
        [star ℝ, planet ℝ] 2)[1]? = some q ∧
      magnitude (q.ax - (planet ℝ).ax) (q.ay - (planet ℝ).ay)
          (q.az - (planet ℝ).az) =
        |(example_sim ℝ).G * 1.0| /
          squared_distance (planet ℝ) 0.0 0.0 0.0 := by
  have hr : 0 < squared_distance (planet ℝ) 0.0 0.0 0.0 := by
    rw [squared_distance_planet_origin]; exact one_pos
  obtain ⟨q, hq, -, hmag, -⟩ :=
    C1_point_mass_law (example_sim ℝ) (unit_point_mass ℝ) [star ℝ, planet ℝ] 2 1.0 0.0 0.0 0.0
      rfl rfl rfl rfl 1 (by decide) (planet ℝ) rfl (planet_enabled ℝ) hr
  exact ⟨planet_enabled ℝ, hr, q, hq, hmag⟩

/-- C1, counterexample: with `G = 1` and a source of mass `-1` at the origin, the
enabled planet at `(1, 0, 0)` (distance `1`) gets the vector `(1, 0, 0)` added:
it points away from the source, and its length `1` is not `G M / r2 = -1`. -/
theorem C1_counterexample :
    rebx_get_param (planet ℝ).ap "ext_enable" ≠ none ∧
    0 < squared_distance (planet ℝ) 0.0 0.0 0.0 ∧
    ∃ q, (rebx_external_point_mass_force exactMath (example_sim ℝ) (negative_point_mass ℝ)
        [planet ℝ] 1)[0]? = some q ∧
      q.ax - (planet ℝ).ax = 1 ∧
      magnitude (q.ax - (planet ℝ).ax) (q.ay - (planet ℝ).ay)
          (q.az - (planet ℝ).az) ≠
        (example_sim ℝ).G * (-1.0) /
          squared_distance (planet ℝ) 0.0 0.0 0.0 := by
  have hr : 0 < squared_distance (planet ℝ) 0.0 0.0 0.0 := by
    rw [squared_distance_planet_origin]; exact one_pos
  refine ⟨planet_enabled ℝ, hr,
    point_mass_iteration exactMath (example_sim ℝ).G (-1.0) 0.0 0.0 0.0 (planet ℝ), ?_, ?_, ?_⟩
  · rw [getElem?_point_mass_force exactMath (example_sim ℝ) (negative_point_mass ℝ) [planet ℝ] 1
        (-1.0) 0.0 0.0 0.0 rfl rfl rfl rfl 0]
    rfl
  · rw [point_mass_iteration_of_present _ _ _ _ _ _ _ (planet_enabled ℝ),
      squared_distance_planet_origin]
    simp [exactMath, example_sim, planet]
    norm_num
  · rw [squared_distance_planet_origin]
    intro h
    have h0 := Real.sqrt_nonneg
      (((point_mass_iteration exactMath (example_sim ℝ).G (-1.0) 0.0 0.0 0.0 (planet ℝ)).ax -
          (planet ℝ).ax) *
        ((point_mass_iteration exactMath (example_sim ℝ).G (-1.0) 0.0 0.0 0.0 (planet ℝ)).ax -
          (planet ℝ).ax) +
       ((point_mass_iteration exactMath (example_sim ℝ).G (-1.0) 0.0 0.0 0.0 (planet ℝ)).ay -
          (planet ℝ).ay) *
        ((point_mass_iteration exactMath (example_sim ℝ).G (-1.0) 0.0 0.0 0.0 (planet ℝ)).ay -
          (planet ℝ).ay) +
       ((point_mass_iteration exactMath (example_sim ℝ).G (-1.0) 0.0 0.0 0.0 (planet ℝ)).az -
          (planet ℝ).az) *
        ((point_mass_iteration exactMath (example_sim ℝ).G (-1.0) 0.0 0.0 0.0 (planet ℝ)).az -
          (planet ℝ).az))
    unfold magnitude at h
    rw [h] at h0
    simp only [example_sim] at h0
    norm_num at h0

/-! ## The sphere in real arithmetic -/

/-- The total mass computed by `rebx_calculate_sphere_force`, in real
arithmetic. -/
theorem sphere_mass_eq (rho rad : ℝ) :
    rho * 4.0/3.0 * exactMath.M_PI * (rad*rad*rad) = rho * (4/3) * Real.pi * rad^3 := by
  simp only [exactMath]
  norm_num
  ring

theorem not_lt_of_exterior (rad r2 : ℝ) (h : rad^2 ≤ r2) : ¬ r2 < rad*rad := by
  rw [← sq]; exact not_lt.mpr h

/-- Outside the sphere an iteration of the sphere loop is an iteration of the
point-mass loop with the total mass of the sphere. -/
theorem sphere_iteration_exterior (G rad rho cx cy cz : ℝ) (p : reb_particle ℝ)
    (hext : rad^2 ≤ squared_distance p cx cy cz) :
    sphere_iteration exactMath G rad (rho * 4.0/3.0 * exactMath.M_PI * (rad*rad*rad))
        (rad*rad*rad) cx cy cz p =
      point_mass_iteration exactMath G (rho * (4/3) * Real.pi * rad^3) cx cy cz p := by
  rw [sphere_mass_eq]
  unfold sphere_iteration point_mass_iteration
  have h : ¬ (p.x - cx)*(p.x - cx) + (p.y - cy)*(p.y - cy) + (p.z - cz)*(p.z - cz) < rad*rad :=
    not_lt_of_exterior rad _ hext
  cases rebx_get_param p.ap "ext_enable" with
  | none => rfl
  | some v => simp only [if_neg h]

/-- C2 (as amended). Sphere exterior law: with `rad`, `rho` and the center present
on the sphere force, an enabled particle at an index below `N` with
`r2 ≥ rad²` is, after `rebx_sphere_force`, the same particle as after
`rebx_external_point_mass_force` for a point source of mass
`M = rho·(4/3)·π·rad³` at the center; when `r2 > 0` the length of the added
vector is `|G M| / r2`. -/
theorem C2_sphere_exterior_law (sim : reb_simulation ℝ) (sforce pforce : rebx_force ℝ)
    (particles : List (reb_particle ℝ)) (N : Int) (rad rho cx cy cz : ℝ)
    (hrad : rebx_get_param sforce.ap "rad" = some rad)
    (hrho : rebx_get_param sforce.ap "rho" = some rho)
    (hcx : rebx_get_param sforce.ap "x_cen" = some cx)
    (hcy : rebx_get_param sforce.ap "y_cen" = some cy)
    (hcz : rebx_get_param sforce.ap "z_cen" = some cz)
    (hM : rebx_get_param pforce.ap "ext_M" = some (rho * (4/3) * Real.pi * rad^3))
    (hx : rebx_get_param pforce.ap "ext_x" = some cx)
    (hy : rebx_get_param pforce.ap "ext_y" = some cy)
    (hz : rebx_get_param pforce.ap "ext_z" = some cz)
    (i : Nat) (hi : (i : Int) < N) (p : reb_particle ℝ) (hp : particles[i]? = some p)
    (hen : rebx_get_param p.ap "ext_enable" ≠ none)
    (hext : rad^2 ≤ squared_distance p cx cy cz) :
    ∃ q, (rebx_sphere_force exactMath sim sforce particles N)[i]? = some q ∧
      (rebx_external_point_mass_force exactMath sim pforce particles N)[i]? = some q ∧
      (0 < squared_distance p cx cy cz →
        magnitude (q.ax - p.ax) (q.ay - p.ay) (q.az - p.az) =
          |sim.G * (rho * (4/3) * Real.pi * rad^3)| / squared_distance p cx cy cz) := by
  have hi' : i < N.toNat := by omega
  refine ⟨point_mass_iteration exactMath sim.G (rho * (4/3) * Real.pi * rad^3) cx cy cz p,
    ?_, ?_, ?_⟩
  · rw [getElem?_sphere_force exactMath sim sforce particles N rad rho cx cy cz
        hrad hrho hcx hcy hcz i, if_pos hi', hp, Option.map_some',
      sphere_iteration_exterior sim.G rad rho cx cy cz p hext]
  · rw [getElem?_point_mass_force exactMath sim pforce particles N _ cx cy cz hM hx hy hz i,
      if_pos hi', hp, Option.map_some']
  · intro hr
    rw [point_mass_iteration_of_present _ _ _ _ _ _ _ hen]
    simp only [add_sub_self_left]
    exact magnitude_inverse_cube sim.G _ (p.x - cx) (p.y - cy) (p.z - cz) hr

theorem squared_distance_planet_center :
    squared_distance (planet ℝ) 0.1 0.0 0.0 = 0.81 := by
  simp [squared_distance, planet]
  norm_num

theorem magnitude_nonneg (vx vy vz : ℝ) : 0 ≤ magnitude vx vy vz := Real.sqrt_nonneg _

theorem magnitude_ne_of_neg (vx vy vz c : ℝ) (hc : c < 0) : magnitude vx vy vz ≠ c :=
  fun h => absurd (h ▸ magnitude_nonneg vx vy vz) (not_le.mpr hc)

/-- C2, witness: the planet of the scenario outside the sphere of `problem.c`. -/
theorem C2_sphere_exterior_law_witness :
    rebx_get_param (planet ℝ).ap "ext_enable" ≠ none ∧
    (0.1 : ℝ)^2 ≤ squared_distance (planet ℝ) 0.1 0.0 0.0 ∧
    ∃ q, (rebx_sphere_force exactMath (example_sim ℝ) (sphere ℝ) [star ℝ, planet ℝ] 2)[1]? =
        some q ∧
      (rebx_external_point_mass_force exactMath (example_sim ℝ)
        (point_mass_with ℝ (10.0 * (4/3) * Real.pi * 0.1^3)) [star ℝ, planet ℝ] 2)[1]? =
        some q := by
  have hext : (0.1 : ℝ)^2 ≤ squared_distance (planet ℝ) 0.1 0.0 0.0 := by
    rw [squared_distance_planet_center]; norm_num
  obtain ⟨q, hs, hpm, -⟩ :=
    C2_sphere_exterior_law (example_sim ℝ) (sphere ℝ)
      (point_mass_with ℝ (10.0 * (4/3) * Real.pi * 0.1^3)) [star ℝ, planet ℝ] 2
      0.1 10.0 0.1 0.0 0.0 rfl rfl rfl rfl rfl rfl rfl rfl rfl 1 (by decide) (planet ℝ) rfl
      (planet_enabled ℝ) hext
  exact ⟨planet_enabled ℝ, hext, q, hs, hpm⟩

/-- C2, counterexample: with `G = 1`, `rad = 0.1` and the negative density
`rho = -10`, the enabled planet at `(1, 0, 0)` lies outside the sphere centered
at `(0.1, 0, 0)`; there `G M / r2` is negative, so it is not the length of the
added vector. -/
theorem C2_counterexample :
    rebx_get_param (planet ℝ).ap "ext_enable" ≠ none ∧
    (0.1 : ℝ)^2 ≤ squared_distance (planet ℝ) 0.1 0.0 0.0 ∧
    ∃ q, (rebx_sphere_force exactMath (example_sim ℝ) (sphere_with ℝ 0.1 (-10.0))
        [star ℝ, planet ℝ] 2)[1]? = some q ∧
      magnitude (q.ax - (planet ℝ).ax) (q.ay - (planet ℝ).ay) (q.az - (planet ℝ).az) ≠
        (example_sim ℝ).G * ((-10.0) * (4/3) * Real.pi * 0.1^3) /
          squared_distance (planet ℝ) 0.1 0.0 0.0 := by
  have hext : (0.1 : ℝ)^2 ≤ squared_distance (planet ℝ) 0.1 0.0 0.0 := by
    rw [squared_distance_planet_center]; norm_num
  refine ⟨planet_enabled ℝ, hext,
    sphere_iteration exactMath (example_sim ℝ).G 0.1
      (-10.0 * 4.0/3.0 * exactMath.M_PI * (0.1*0.1*0.1)) (0.1*0.1*0.1) 0.1 0.0 0.0 (planet ℝ),
    ?_, magnitude_ne_of_neg _ _ _ _ ?_⟩
  · rw [getElem?_sphere_force exactMath (example_sim ℝ) (sphere_with ℝ 0.1 (-10.0))
        [star ℝ, planet ℝ] 2 0.1 (-10.0) 0.1 0.0 0.0 rfl rfl rfl rfl rfl 1]
    rfl
  · rw [squared_distance_planet_center]
    simp only [example_sim]
    have hpi := Real.pi_pos
    norm_num
    apply div_neg_of_neg_of_pos <;> norm_num
    exact hpi

theorem sphere_iteration_interior (G rad rho cx cy cz : ℝ) (p : reb_particle ℝ)
    (hen : rebx_get_param p.ap "ext_enable" ≠ none)
    (hin : squared_distance p cx cy cz < rad^2) :
    sphere_iteration exactMath G rad (rho * 4.0/3.0 * exactMath.M_PI * (rad*rad*rad))
        (rad*rad*rad) cx cy cz p =
      { p with
        ax := p.ax + -G * (rho * (4/3) * Real.pi * rad^3) / rad^3 * (p.x - cx)
        ay := p.ay + -G * (rho * (4/3) * Real.pi * rad^3) / rad^3 * (p.y - cy)
        az := p.az + -G * (rho * (4/3) * Real.pi * rad^3) / rad^3 * (p.z - cz) } := by
  have h : squared_distance p cx cy cz < rad*rad := by rw [← sq]; exact hin
  rw [sphere_iteration_of_present _ _ _ _ _ _ _ _ _ hen, sphere_mass_eq]
  simp only [if_pos h]
  have e : rad*rad*rad = rad^3 := by ring
  rw [e]

theorem interior_prefactor_abs (G rad rho : ℝ) (hrad : rad ≠ 0) :
    |-G * (rho * (4/3) * Real.pi * rad^3) / rad^3| = |G * rho| * ((4/3) * Real.pi) := by
  have e : -G * (rho * (4/3) * Real.pi * rad^3) / rad^3 = -((G * rho) * ((4/3) * Real.pi)) := by
    field_simp
    ring
  rw [e, abs_neg, abs_mul, abs_of_pos (by positivity : (0:ℝ) < (4/3) * Real.pi)]

theorem ne_zero_of_interior (rad r2 : ℝ) (h0 : 0 ≤ r2) (h : r2 < rad^2) : rad ≠ 0 := by
  rintro rfl
  norm_num at h
  linarith

theorem squared_distance_nonneg (p : reb_particle ℝ) (x y z : ℝ) :
    0 ≤ squared_distance p x y z := by
  unfold squared_distance
  nlinarith [mul_self_nonneg (p.x - x), mul_self_nonneg (p.y - y), mul_self_nonneg (p.z - z)]

/-- The length of the vector added to an interior particle. -/
theorem magnitude_interior (G rad rho cx cy cz : ℝ) (p : reb_particle ℝ)
    (hin : squared_distance p cx cy cz < rad^2) :
    magnitude (-G * (rho * (4/3) * Real.pi * rad^3) / rad^3 * (p.x - cx))
        (-G * (rho * (4/3) * Real.pi * rad^3) / rad^3 * (p.y - cy))
        (-G * (rho * (4/3) * Real.pi * rad^3) / rad^3 * (p.z - cz)) =
      |G * rho| * ((4/3) * Real.pi) * Real.sqrt (squared_distance p cx cy cz) := by
  rw [magnitude_smul,
    interior_prefactor_abs G rad rho
      (ne_zero_of_interior rad _ (squared_distance_nonneg p cx cy cz) hin)]
  rfl

/-- C3 (as amended). Sphere interior law: with a complete sphere configuration,
every enabled particle strictly inside the sphere (`r2 < rad²`) gets added the
vector `k·(dx, dy, dz)` with one and the same constant `k = -G·M/R³`,
`M = rho·(4/3)·π·R³`, `R³ = rad³`.  For a particle at distance `r > 0` the length
of the added vector is `|G·m(r)| / r²` with the enclosed mass
`m(r) = rho·(4/3)·π·r³`, and for two such particles the ratios of length to
distance are equal. -/
theorem C3_sphere_interior_law (sim : reb_simulation ℝ) (force : rebx_force ℝ)
    (particles : List (reb_particle ℝ)) (N : Int) (rad rho cx cy cz : ℝ)
    (hrad : rebx_get_param force.ap "rad" = some rad)
    (hrho : rebx_get_param force.ap "rho" = some rho)
    (hcx : rebx_get_param force.ap "x_cen" = some cx)
    (hcy : rebx_get_param force.ap "y_cen" = some cy)
    (hcz : rebx_get_param force.ap "z_cen" = some cz)
    (i j : Nat) (hi : (i : Int) < N) (hj : (j : Int) < N) (p₁ p₂ : reb_particle ℝ)
    (hp₁ : particles[i]? = some p₁) (hp₂ : particles[j]? = some p₂)
    (hen₁ : rebx_get_param p₁.ap "ext_enable" ≠ none)
    (hen₂ : rebx_get_param p₂.ap "ext_enable" ≠ none)
    (hin₁ : squared_distance p₁ cx cy cz < rad^2)
    (hin₂ : squared_distance p₂ cx cy cz < rad^2) :
    ∃ q₁ q₂, (rebx_sphere_force exactMath sim force particles N)[i]? = some q₁ ∧
      (rebx_sphere_force exactMath sim force particles N)[j]? = some q₂ ∧
      (q₁.ax - p₁.ax = -sim.G * (rho * (4/3) * Real.pi * rad^3) / rad^3 * (p₁.x - cx) ∧
       q₁.ay - p₁.ay = -sim.G * (rho * (4/3) * Real.pi * rad^3) / rad^3 * (p₁.y - cy) ∧
       q₁.az - p₁.az = -sim.G * (rho * (4/3) * Real.pi * rad^3) / rad^3 * (p₁.z - cz)) ∧
      (q₂.ax - p₂.ax = -sim.G * (rho * (4/3) * Real.pi * rad^3) / rad^3 * (p₂.x - cx) ∧
       q₂.ay - p₂.ay = -sim.G * (rho * (4/3) * Real.pi * rad^3) / rad^3 * (p₂.y - cy) ∧
       q₂.az - p₂.az = -sim.G * (rho * (4/3) * Real.pi * rad^3) / rad^3 * (p₂.z - cz)) ∧
      (0 < squared_distance p₁ cx cy cz →
        magnitude (q₁.ax - p₁.ax) (q₁.ay - p₁.ay) (q₁.az - p₁.az) =
          |sim.G * (rho * (4/3) * Real.pi * Real.sqrt (squared_distance p₁ cx cy cz) ^ 3)| /
            Real.sqrt (squared_distance p₁ cx cy cz) ^ 2) ∧
      (0 < squared_distance p₁ cx cy cz → 0 < squared_distance p₂ cx cy cz →
        magnitude (q₁.ax - p₁.ax) (q₁.ay - p₁.ay) (q₁.az - p₁.az) /
            Real.sqrt (squared_distance p₁ cx cy cz) =
          magnitude (q₂.ax - p₂.ax) (q₂.ay - p₂.ay) (q₂.az - p₂.az) /
            Real.sqrt (squared_distance p₂ cx cy cz)) := by
  have hi' : i < N.toNat := by omega
  have hj' : j < N.toNat := by omega
  refine ⟨sphere_iteration exactMath sim.G rad (rho * 4.0/3.0 * exactMath.M_PI * (rad*rad*rad))
      (rad*rad*rad) cx cy cz p₁,
    sphere_iteration exactMath sim.G rad (rho * 4.0/3.0 * exactMath.M_PI * (rad*rad*rad))
      (rad*rad*rad) cx cy cz p₂, ?_, ?_, ?_⟩
  · rw [getElem?_sphere_force exactMath sim force particles N rad rho cx cy cz
        hrad hrho hcx hcy hcz i, if_pos hi', hp₁, Option.map_some']
  · rw [getElem?_sphere_force exactMath sim force particles N rad rho cx cy cz
        hrad hrho hcx hcy hcz j, if_pos hj', hp₂, Option.map_some']
  · rw [sphere_iteration_interior sim.G rad rho cx cy cz p₁ hen₁ hin₁,
      sphere_iteration_interior sim.G rad rho cx cy cz p₂ hen₂ hin₂]
    simp only [add_sub_self_left]
    rw [magnitude_interior sim.G rad rho cx cy cz p₁ hin₁,
      magnitude_interior sim.G rad rho cx cy cz p₂ hin₂]
    refine ⟨⟨trivial, trivial, trivial⟩, ⟨trivial, trivial, trivial⟩, ?_, ?_⟩
    · intro hr₁
      have hs₁ : 0 < Real.sqrt (squared_distance p₁ cx cy cz) := Real.sqrt_pos.mpr hr₁
      have hm : |sim.G * (rho * (4/3) * Real.pi *
            Real.sqrt (squared_distance p₁ cx cy cz) ^ 3)| =
          |sim.G * rho| * ((4/3) * Real.pi * Real.sqrt (squared_distance p₁ cx cy cz) ^ 3) := by
        have e : sim.G * (rho * (4/3) * Real.pi *
              Real.sqrt (squared_distance p₁ cx cy cz) ^ 3) =
            (sim.G * rho) *
              ((4/3) * Real.pi * Real.sqrt (squared_distance p₁ cx cy cz) ^ 3) := by
          ring
        rw [e, abs_mul (sim.G * rho),
          abs_of_pos (by positivity :
            (0:ℝ) < (4/3) * Real.pi * Real.sqrt (squared_distance p₁ cx cy cz) ^ 3)]
      rw [hm, eq_div_iff (pow_ne_zero 2 hs₁.ne')]
      ring
    · intro hr₁ hr₂
      rw [mul_div_assoc, mul_div_assoc, div_self (Real.sqrt_pos.mpr hr₁).ne',
        div_self (Real.sqrt_pos.mpr hr₂).ne']

theorem planet_at_enabled (x : ℝ) :
    rebx_get_param (planet_at ℝ x).ap "ext_enable" ≠ none := planet_enabled ℝ

theorem squared_distance_planet_at_center :
    squared_distance (planet_at ℝ 0.5) 0.1 0.0 0.0 = 0.16 := by
  simp [squared_distance, planet_at, planet]
  norm_num

/-- C3, witness: the planet at `(1, 0, 0)` and a second enabled particle at
`(0.5, 0, 0)` inside a sphere of radius `2` centered at `(0.1, 0, 0)`. -/
theorem C3_sphere_interior_law_witness :
    (squared_distance (planet ℝ) 0.1 0.0 0.0 < (2.0 : ℝ)^2 ∧
      squared_distance (planet_at ℝ 0.5) 0.1 0.0 0.0 < (2.0 : ℝ)^2) ∧
    (0 < squared_distance (planet ℝ) 0.1 0.0 0.0 ∧
      0 < squared_distance (planet_at ℝ 0.5) 0.1 0.0 0.0) ∧
    ∃ q₁ q₂,
      (rebx_sphere_force exactMath (example_sim ℝ) (sphere_with ℝ 2.0 10.0)
        [planet ℝ, planet_at ℝ 0.5] 2)[0]? = some q₁ ∧
      (rebx_sphere_force exactMath (example_sim ℝ) (sphere_with ℝ 2.0 10.0)
        [planet ℝ, planet_at ℝ 0.5] 2)[1]? = some q₂ ∧
      magnitude (q₁.ax - (planet ℝ).ax) (q₁.ay - (planet ℝ).ay) (q₁.az - (planet ℝ).az) /
          Real.sqrt (squared_distance (planet ℝ) 0.1 0.0 0.0) =
        magnitude (q₂.ax - (planet_at ℝ 0.5).ax) (q₂.ay - (planet_at ℝ 0.5).ay)
            (q₂.az - (planet_at ℝ 0.5).az) /
          Real.sqrt (squared_distance (planet_at ℝ 0.5) 0.1 0.0 0.0) := by
  have hin₁ : squared_distance (planet ℝ) 0.1 0.0 0.0 < (2.0 : ℝ)^2 := by
    rw [squared_distance_planet_center]; norm_num
  have hin₂ : squared_distance (planet_at ℝ 0.5) 0.1 0.0 0.0 < (2.0 : ℝ)^2 := by
    rw [squared_distance_planet_at_center]; norm_num
  have hr₁ : 0 < squared_distance (planet ℝ) 0.1 0.0 0.0 := by
    rw [squared_distance_planet_center]; norm_num
  have hr₂ : 0 < squared_distance (planet_at ℝ 0.5) 0.1 0.0 0.0 := by
    rw [squared_distance_planet_at_center]; norm_num
  obtain ⟨q₁, q₂, h₁, h₂, -, -, -, hratio⟩ :=
    C3_sphere_interior_law (example_sim ℝ) (sphere_with ℝ 2.0 10.0)
      [planet ℝ, planet_at ℝ 0.5] 2 2.0 10.0 0.1 0.0 0.0 rfl rfl rfl rfl rfl
      0 1 (by decide) (by decide) (planet ℝ) (planet_at ℝ 0.5) rfl rfl
      (planet_enabled ℝ) (planet_at_enabled 0.5) hin₁ hin₂
  exact ⟨⟨hin₁, hin₂⟩, ⟨hr₁, hr₂⟩, q₁, q₂, h₁, h₂, hratio hr₁ hr₂⟩

/-- C3, counterexample: with `G = 1`, `rad = 2` and the negative density
`rho = -10`, the enabled planet at `(1, 0, 0)` lies inside the sphere centered at
`(0.1, 0, 0)`, at distance `r = 0.9`; there `G` times the enclosed mass
`rho·(4/3)·π·r³` divided by `r²` is negative, so it is not the length of the added
vector. -/
theorem C3_counterexample :
    rebx_get_param (planet ℝ).ap "ext_enable" ≠ none ∧
    squared_distance (planet ℝ) 0.1 0.0 0.0 < (2.0 : ℝ)^2 ∧
    0 < squared_distance (planet ℝ) 0.1 0.0 0.0 ∧
    ∃ q, (rebx_sphere_force exactMath (example_sim ℝ) (sphere_with ℝ 2.0 (-10.0))
        [star ℝ, planet ℝ] 2)[1]? = some q ∧
      magnitude (q.ax - (planet ℝ).ax) (q.ay - (planet ℝ).ay) (q.az - (planet ℝ).az) ≠
        (example_sim ℝ).G *
            ((-10.0) * (4/3) * Real.pi *
              Real.sqrt (squared_distance (planet ℝ) 0.1 0.0 0.0) ^ 3) /
          Real.sqrt (squared_distance (planet ℝ) 0.1 0.0 0.0) ^ 2 := by
  have hin : squared_distance (planet ℝ) 0.1 0.0 0.0 < (2.0 : ℝ)^2 := by
    rw [squared_distance_planet_center]; norm_num
  have hr : 0 < squared_distance (planet ℝ) 0.1 0.0 0.0 := by
    rw [squared_distance_planet_center]; norm_num
  have hs : 0 < Real.sqrt (squared_distance (planet ℝ) 0.1 0.0 0.0) := Real.sqrt_pos.mpr hr
  refine ⟨planet_enabled ℝ, hin, hr,
    sphere_iteration exactMath (example_sim ℝ).G 2.0
      (-10.0 * 4.0/3.0 * exactMath.M_PI * (2.0*2.0*2.0)) (2.0*2.0*2.0) 0.1 0.0 0.0 (planet ℝ),
    ?_, magnitude_ne_of_neg _ _ _ _ ?_⟩
  · rw [getElem?_sphere_force exactMath (example_sim ℝ) (sphere_with ℝ 2.0 (-10.0))
        [star ℝ, planet ℝ] 2 2.0 (-10.0) 0.1 0.0 0.0 rfl rfl rfl rfl rfl 1]
    rfl
  · have hpi := Real.pi_pos
    have hpos : 0 < (4/3) * Real.pi *
        Real.sqrt (squared_distance (planet ℝ) 0.1 0.0 0.0) ^ 3 := by positivity
    apply div_neg_of_neg_of_pos _ (by positivity)
    simp only [example_sim]
    norm_num
    linarith

/-- At `r2 = rad²` with `rad > 0`, `pow(r2, -1.5)` is `1 / rad³`. -/
theorem rpow_surface (rad : ℝ) (hrad : 0 < rad) :
    (rad^2) ^ (-1.5 : ℝ) = 1 / rad^3 := by
  rw [rpow_neg_three_halves _ (by positivity), Real.sqrt_sq hrad.le]
  congr 1

/-- C4. Continuity at the surface: for `rad > 0` and an enabled particle with
`r2 = rad²`, the interior prefactor `-G·M/R³` and the exterior prefactor
`-G·M·r2^(-1.5)` of `rebx_calculate_sphere_force` are the same value
`-G·M/rad³` (`M = rho·(4/3)·π·rad³`), and the vector the call adds (through the
exterior branch, which the code takes at `r2 = rad²`) is this value times the
displacement. -/
theorem C4_continuity_at_surface (sim : reb_simulation ℝ) (force : rebx_force ℝ)
    (particles : List (reb_particle ℝ)) (N : Int) (rad rho cx cy cz : ℝ)
    (hrad : rebx_get_param force.ap "rad" = some rad)
    (hrho : rebx_get_param force.ap "rho" = some rho)
    (hcx : rebx_get_param force.ap "x_cen" = some cx)
    (hcy : rebx_get_param force.ap "y_cen" = some cy)
    (hcz : rebx_get_param force.ap "z_cen" = some cz)
    (i : Nat) (hi : (i : Int) < N) (p : reb_particle ℝ) (hp : particles[i]? = some p)
    (hen : rebx_get_param p.ap "ext_enable" ≠ none)
    (hpos : 0 < rad) (hsurf : squared_distance p cx cy cz = rad^2) :
    (-sim.G * (rho * 4.0/3.0 * exactMath.M_PI * (rad*rad*rad)) / (rad*rad*rad) =
        -sim.G * (rho * (4/3) * Real.pi * rad^3) / rad^3 ∧
      -sim.G * (rho * 4.0/3.0 * exactMath.M_PI * (rad*rad*rad)) *
          exactMath.pow (squared_distance p cx cy cz) (-1.5) =
        -sim.G * (rho * (4/3) * Real.pi * rad^3) / rad^3) ∧
    ∃ q, (rebx_sphere_force exactMath sim force particles N)[i]? = some q ∧
      q.ax - p.ax = -sim.G * (rho * (4/3) * Real.pi * rad^3) / rad^3 * (p.x - cx) ∧
      q.ay - p.ay = -sim.G * (rho * (4/3) * Real.pi * rad^3) / rad^3 * (p.y - cy) ∧
      q.az - p.az = -sim.G * (rho * (4/3) * Real.pi * rad^3) / rad^3 * (p.z - cz) := by
  have hi' : i < N.toNat := by omega
  have hcube : rad*rad*rad = rad^3 := by ring
  have hpow : (squared_distance p cx cy cz) ^ (-1.5 : ℝ) = 1 / rad^3 := by
    rw [hsurf]; exact rpow_surface rad hpos
  have hext : -sim.G * (rho * (4/3) * Real.pi * rad^3) *
      (squared_distance p cx cy cz) ^ (-1.5 : ℝ) =
      -sim.G * (rho * (4/3) * Real.pi * rad^3) / rad^3 := by
    rw [hpow, mul_one_div]
  refine ⟨⟨?_, ?_⟩,
    point_mass_iteration exactMath sim.G (rho * (4/3) * Real.pi * rad^3) cx cy cz p,
    ?_, ?_⟩
  · rw [sphere_mass_eq, hcube]
  · rw [sphere_mass_eq]; exact hext
  · rw [getElem?_sphere_force exactMath sim force particles N rad rho cx cy cz
        hrad hrho hcx hcy hcz i, if_pos hi', hp, Option.map_some',
      sphere_iteration_exterior sim.G rad rho cx cy cz p hsurf.ge]
  · rw [point_mass_iteration_of_present _ _ _ _ _ _ _ hen]
    simp only [add_sub_self_left]
    change
      -sim.G * (rho * (4/3) * Real.pi * rad^3) * (squared_distance p cx cy cz) ^ (-1.5 : ℝ) *
          (p.x - cx) = _ ∧
      -sim.G * (rho * (4/3) * Real.pi * rad^3) * (squared_distance p cx cy cz) ^ (-1.5 : ℝ) *
          (p.y - cy) = _ ∧
      -sim.G * (rho * (4/3) * Real.pi * rad^3) * (squared_distance p cx cy cz) ^ (-1.5 : ℝ) *
          (p.z - cz) = _
    rw [hext]
    exact ⟨rfl, rfl, rfl⟩

/-- C4, witness: the planet at `(1, 0, 0)` on the surface of a sphere of radius
`0.9` centered at `(0.1, 0, 0)`. -/
theorem C4_continuity_at_surface_witness :
    (0 : ℝ) < 0.9 ∧ squared_distance (planet ℝ) 0.1 0.0 0.0 = (0.9 : ℝ)^2 ∧
    ∃ q, (rebx_sphere_force exactMath (example_sim ℝ) (sphere_with ℝ 0.9 10.0)
        [star ℝ, planet ℝ] 2)[1]? = some q ∧
      q.ax - (planet ℝ).ax =
        -(example_sim ℝ).G * (10.0 * (4/3) * Real.pi * 0.9^3) / 0.9^3 * ((planet ℝ).x - 0.1) := by
  have hsurf : squared_distance (planet ℝ) 0.1 0.0 0.0 = (0.9 : ℝ)^2 := by
    rw [squared_distance_planet_center]; norm_num
  obtain ⟨-, q, hq, hax, -⟩ :=
    C4_continuity_at_surface (example_sim ℝ) (sphere_with ℝ 0.9 10.0) [star ℝ, planet ℝ] 2
      0.9 10.0 0.1 0.0 0.0 rfl rfl rfl rfl rfl 1 (by decide) (planet ℝ) rfl
      (planet_enabled ℝ) (by norm_num) hsurf
  exact ⟨by norm_num, hsurf, q, hq, hax⟩

/-! ## Additive accumulation in exact arithmetic -/

section Additive

variable {α : Type} [LinearOrderedField α]

theorem adds_contribution_id : adds_contribution (fun p : reb_particle α => p) := by
  refine ⟨fun _ => (0, 0, 0), fun _ _ _ _ => rfl, fun p => ?_⟩
  cases p
  simp

theorem adds_contribution_point_mass (lm : Libm α) (G M sx sy sz : α) :
    adds_contribution (point_mass_iteration lm G M sx sy sz) := by
  refine ⟨fun p =>
    match rebx_get_param p.ap "ext_enable" with
    | none => (0, 0, 0)
    | some _ =>
      (-G*M*lm.pow (squared_distance p sx sy sz) (-1.5) * (p.x - sx),
       -G*M*lm.pow (squared_distance p sx sy sz) (-1.5) * (p.y - sy),
       -G*M*lm.pow (squared_distance p sx sy sz) (-1.5) * (p.z - sz)),
    fun _ _ _ _ => rfl, fun p => ?_⟩
  unfold point_mass_iteration squared_distance
  beta_reduce
  cases rebx_get_param p.ap "ext_enable" with
  | none => cases p; simp
  | some v => rfl

theorem adds_contribution_sphere (lm : Libm α) (G rad M R3 cx cy cz : α) :
    adds_contribution (sphere_iteration lm G rad M R3 cx cy cz) := by
  refine ⟨fun p =>
    match rebx_get_param p.ap "ext_enable" with
    | none => (0, 0, 0)
    | some _ =>
      ((if squared_distance p cx cy cz < rad*rad then -G*M/R3
          else -G*M*lm.pow (squared_distance p cx cy cz) (-1.5)) * (p.x - cx),
       (if squared_distance p cx cy cz < rad*rad then -G*M/R3
          else -G*M*lm.pow (squared_distance p cx cy cz) (-1.5)) * (p.y - cy),
       (if squared_distance p cx cy cz < rad*rad then -G*M/R3
          else -G*M*lm.pow (squared_distance p cx cy cz) (-1.5)) * (p.z - cz)),
    fun _ _ _ _ => rfl, fun p => ?_⟩
  unfold sphere_iteration squared_distance
  beta_reduce
  cases rebx_get_param p.ap "ext_enable" with
  | none => cases p; simp
  | some v => rfl

theorem for_each_particle_id (particles : List (reb_particle α)) (N : Int) :
    for_each_particle (fun p => p) particles N = particles := by
  apply List.ext_getElem?
  intro j
  rw [getElem?_for_each_particle]
  split <;> simp

/-- Each call of the point-mass evaluator is one run of the loop with a body
that adds a contribution; the body depends on the simulation and the force
only. -/
theorem point_mass_force_eq_loop (lm : Libm α) (sim : reb_simulation α)
    (force : rebx_force α) :
    ∃ body : reb_particle α → reb_particle α, adds_contribution body ∧
      ∀ (particles : List (reb_particle α)) (N : Int),
        rebx_external_point_mass_force lm sim force particles N =
          for_each_particle body particles N := by
  unfold rebx_external_point_mass_force rebx_calculate_point_mass_force
  cases rebx_get_param force.ap "ext_M" <;> cases rebx_get_param force.ap "ext_x" <;>
    cases rebx_get_param force.ap "ext_y" <;> cases rebx_get_param force.ap "ext_z" <;>
    first
    | exact ⟨_, adds_contribution_point_mass lm sim.G _ _ _ _, fun _ _ => rfl⟩
    | exact ⟨_, adds_contribution_id, fun ps N => (for_each_particle_id ps N).symm⟩

theorem sphere_force_eq_loop (lm : Libm α) (sim : reb_simulation α)
    (force : rebx_force α) :
    ∃ body : reb_particle α → reb_particle α, adds_contribution body ∧
      ∀ (particles : List (reb_particle α)) (N : Int),
        rebx_sphere_force lm sim force particles N =
          for_each_particle body particles N := by
  unfold rebx_sphere_force rebx_calculate_sphere_force
  cases rebx_get_param force.ap "rad" <;> cases rebx_get_param force.ap "rho" <;>
    cases rebx_get_param force.ap "x_cen" <;> cases rebx_get_param force.ap "y_cen" <;>
    cases rebx_get_param force.ap "z_cen" <;>
    first
    | exact ⟨_, adds_contribution_sphere lm sim.G _ _ _ _ _ _, fun _ _ => rfl⟩
    | exact ⟨_, adds_contribution_id, fun ps N => (for_each_particle_id ps N).symm⟩

/-- Two loops whose bodies add contributions commute. -/
theorem for_each_particle_comm (f g : reb_particle α → reb_particle α)
    (hf : adds_contribution f) (hg : adds_contribution g)
    (particles : List (reb_particle α)) (N : Int) :
    for_each_particle f (for_each_particle g particles N) N =
      for_each_particle g (for_each_particle f particles N) N := by
  obtain ⟨cf, hcf, hf⟩ := hf
  obtain ⟨cg, hcg, hg⟩ := hg
  have hcomm : ∀ p, f (g p) = g (f p) := by
    intro p
    rw [hf (g p), hg (f p), hg p, hf p]
    simp only [hcf, hcg, add_right_comm]
  apply List.ext_getElem?
  intro j
  simp only [getElem?_for_each_particle]
  split
  · cases particles[j]? with
    | none => rfl
    | some p => simp [hcomm p]
  · rfl

/-- One run and two runs of a loop whose body adds a contribution, against the
run on the cleared accumulators. -/
theorem for_each_particle_additive (f : reb_particle α → reb_particle α)
    (hf : adds_contribution f) (particles : List (reb_particle α)) (N : Int)
    (i : Nat) (p : reb_particle α) (hp : particles[i]? = some p) :
    ∃ c q₁ q₂,
      (for_each_particle f (particles.map clear_acceleration) N)[i]? = some c ∧
      (for_each_particle f particles N)[i]? = some q₁ ∧
      (for_each_particle f (for_each_particle f particles N) N)[i]? = some q₂ ∧
      (q₁.ax = p.ax + c.ax ∧ q₁.ay = p.ay + c.ay ∧ q₁.az = p.az + c.az) ∧
      (q₂.ax = p.ax + 2 * c.ax ∧ q₂.ay = p.ay + 2 * c.ay ∧ q₂.az = p.az + 2 * c.az) := by
  obtain ⟨cf, hcf, hf⟩ := hf
  simp only [getElem?_for_each_particle, List.getElem?_map, hp, Option.map_some']
  by_cases hi : i < N.toNat
  · simp only [hi, if_true, Option.map_some']
    refine ⟨_, _, _, rfl, rfl, rfl, ?_, ?_⟩
    · rw [hf p, hf (clear_acceleration p)]
      simp [clear_acceleration, hcf]
    · rw [hf (f p), hf p, hf (clear_acceleration p)]
      simp only [clear_acceleration, hcf, zero_add]
      refine ⟨?_, ?_, ?_⟩ <;> ring
  · simp only [hi, if_false]
    refine ⟨_, _, _, rfl, rfl, rfl, ?_, ?_⟩ <;> simp [clear_acceleration]

/-- C7. Additivity: for every particle array with arbitrary accelerations and every
configuration, one call of either evaluator leaves every particle with `a0 + c`
and two successive calls leave it with `a0 + 2c`, where `a0` is the particle's
accumulator before the calls and `c` is the accumulator the evaluator produces
for that particle on the array with all accumulators cleared (so `c` is computed
without `a0`, and `a0` is not overwritten). -/
theorem C7_additivity (lm : Libm α) (sim : reb_simulation α) (force : rebx_force α)
    (particles : List (reb_particle α)) (N : Int) (i : Nat) (p : reb_particle α)
    (hp : particles[i]? = some p) :
    (∃ c q₁ q₂,
      (rebx_external_point_mass_force lm sim force
        (particles.map clear_acceleration) N)[i]? = some c ∧
      (rebx_external_point_mass_force lm sim force particles N)[i]? = some q₁ ∧
      (rebx_external_point_mass_force lm sim force
        (rebx_external_point_mass_force lm sim force particles N) N)[i]? = some q₂ ∧
      (q₁.ax = p.ax + c.ax ∧ q₁.ay = p.ay + c.ay ∧ q₁.az = p.az + c.az) ∧
      (q₂.ax = p.ax + 2 * c.ax ∧ q₂.ay = p.ay + 2 * c.ay ∧ q₂.az = p.az + 2 * c.az)) ∧
    (∃ c q₁ q₂,
      (rebx_sphere_force lm sim force (particles.map clear_acceleration) N)[i]? = some c ∧
      (rebx_sphere_force lm sim force particles N)[i]? = some q₁ ∧
      (rebx_sphere_force lm sim force
        (rebx_sphere_force lm sim force particles N) N)[i]? = some q₂ ∧
      (q₁.ax = p.ax + c.ax ∧ q₁.ay = p.ay + c.ay ∧ q₁.az = p.az + c.az) ∧
      (q₂.ax = p.ax + 2 * c.ax ∧ q₂.ay = p.ay + 2 * c.ay ∧ q₂.az = p.az + 2 * c.az)) := by
  constructor
  · obtain ⟨body, hbody, he⟩ := point_mass_force_eq_loop lm sim force
    simp only [he]
    exact for_each_particle_additive body hbody particles N i p hp
  · obtain ⟨body, hbody, he⟩ := sphere_force_eq_loop lm sim force
    simp only [he]
    exact for_each_particle_additive body hbody particles N i p hp

/-- C7, witness: the enabled planet with the non-zero accumulator
`(0.5, 0.25, 0.125)` under the sphere of `problem.c`. -/
theorem C7_additivity_witness :
    ([star ℝ, accelerated_planet ℝ])[1]? = some (accelerated_planet ℝ) ∧
    ∃ c q₁ q₂,
      (rebx_sphere_force exactMath (example_sim ℝ) (sphere ℝ)
        ([star ℝ, accelerated_planet ℝ].map clear_acceleration) 2)[1]? = some c ∧
      (rebx_sphere_force exactMath (example_sim ℝ) (sphere ℝ)
        [star ℝ, accelerated_planet ℝ] 2)[1]? = some q₁ ∧
      (rebx_sphere_force exactMath (example_sim ℝ) (sphere ℝ)
        (rebx_sphere_force exactMath (example_sim ℝ) (sphere ℝ)
          [star ℝ, accelerated_planet ℝ] 2) 2)[1]? = some q₂ ∧
      (q₁.ax = (accelerated_planet ℝ).ax + c.ax ∧ q₁.ay = (accelerated_planet ℝ).ay + c.ay ∧
        q₁.az = (accelerated_planet ℝ).az + c.az) ∧
      (q₂.ax = (accelerated_planet ℝ).ax + 2 * c.ax ∧
        q₂.ay = (accelerated_planet ℝ).ay + 2 * c.ay ∧
        q₂.az = (accelerated_planet ℝ).az + 2 * c.az) :=
  ⟨rfl, (C7_additivity exactMath (example_sim ℝ) (sphere ℝ) [star ℝ, accelerated_planet ℝ] 2 1
    (accelerated_planet ℝ) rfl).2⟩

/-- C10. Order irrelevance: for every particle array and any two force sources
`A` and `B`, applying one evaluator and then the other yields the same particle
array in either order: two point masses, two spheres, or a point mass and a
sphere. -/
theorem C10_order_irrelevance (lm : Libm α) (sim : reb_simulation α) (A B : rebx_force α)
    (particles : List (reb_particle α)) (N : Int) :
    rebx_external_point_mass_force lm sim A
        (rebx_external_point_mass_force lm sim B particles N) N =
      rebx_external_point_mass_force lm sim B
        (rebx_external_point_mass_force lm sim A particles N) N ∧
    rebx_sphere_force lm sim A (rebx_sphere_force lm sim B particles N) N =
      rebx_sphere_force lm sim B (rebx_sphere_force lm sim A particles N) N ∧
    rebx_external_point_mass_force lm sim A (rebx_sphere_force lm sim B particles N) N =
      rebx_sphere_force lm sim B (rebx_external_point_mass_force lm sim A particles N) N := by
  obtain ⟨pa, hpa, ea⟩ := point_mass_force_eq_loop lm sim A
  obtain ⟨pb, hpb, eb⟩ := point_mass_force_eq_loop lm sim B
  obtain ⟨sa, hsa, fa⟩ := sphere_force_eq_loop lm sim A
  obtain ⟨sb, hsb, fb⟩ := sphere_force_eq_loop lm sim B
  simp only [ea, eb, fa, fb]
  exact ⟨for_each_particle_comm pa pb hpa hpb particles N,
    for_each_particle_comm sa sb hsa hsb particles N,
    for_each_particle_comm pa sb hpa hsb particles N⟩

end Additive

/-! ## The scenario of `problem.c` -/

theorem magnitude_along_x (a : ℝ) : magnitude a 0 0 = |a| := by
  unfold magnitude
  rw [mul_zero, add_zero, add_zero, Real.sqrt_mul_self_eq_abs]

theorem sqrt_081 : Real.sqrt (0.81 : ℝ) = 0.9 := by
  have h : (0.81 : ℝ) = 0.9 * 0.9 := by norm_num
  rw [h, Real.sqrt_mul_self (by norm_num)]

theorem rpow_081 : (0.81 : ℝ) ^ (-1.5 : ℝ) = 1 / (0.81 * 0.9) := by
  rw [rpow_neg_three_halves _ (by norm_num), sqrt_081]

/-- C9. Concrete scenario of the example: with `G = 1`, the star at the origin
without the enable flag, the planet at `(1, 0, 0)` carrying `ext_enable`, zero
accelerations, and the sphere `rho = 10`, `rad = 0.1`, center `(0.1, 0, 0)`, one
call of `rebx_sphere_force` takes the exterior branch for the planet
(displacement `(0.9, 0, 0)`, `r2 = 0.81 ≥ rad²`), leaves the planet with
`ax = -M/0.81`, `M = 10·(4/3)·π·0.001`, `ay = az = 0`, so that
`0.0517 < |a| < 0.0518` along `-x`, and leaves the star as it was. -/
theorem C9_example_scenario :
    ((planet ℝ).x - 0.1 = 0.9 ∧ (planet ℝ).y - 0.0 = 0 ∧ (planet ℝ).z - 0.0 = 0) ∧
    ¬ squared_distance (planet ℝ) 0.1 0.0 0.0 < (0.1 : ℝ) * 0.1 ∧
    ∃ q, rebx_sphere_force exactMath (example_sim ℝ) (sphere ℝ) [star ℝ, planet ℝ] 2 =
        [star ℝ, q] ∧
      same_outside_acceleration (planet ℝ) q ∧
      q.ax = -(10 * (4/3) * Real.pi * 0.001) / 0.81 ∧ q.ay = 0 ∧ q.az = 0 ∧
      q.ax < 0 ∧
      0.0517 < magnitude q.ax q.ay q.az ∧ magnitude q.ax q.ay q.az < 0.0518 := by
  have hext : (0.1 : ℝ)^2 ≤ squared_distance (planet ℝ) 0.1 0.0 0.0 := by
    rw [squared_distance_planet_center]; norm_num
  have hq : sphere_iteration exactMath (example_sim ℝ).G 0.1
        (10.0 * 4.0/3.0 * exactMath.M_PI * (0.1*0.1*0.1)) (0.1*0.1*0.1) 0.1 0.0 0.0 (planet ℝ) =
      { planet ℝ with ax := -(10 * (4/3) * Real.pi * 0.001) / 0.81, ay := 0, az := 0 } := by
    rw [sphere_iteration_exterior _ _ _ _ _ _ _ hext,
      point_mass_iteration_of_present _ _ _ _ _ _ _ (planet_enabled ℝ),
      squared_distance_planet_center]
    simp only [exactMath, rpow_081, example_sim, planet]
    norm_num
    ring
  have hpi₁ := Real.pi_gt_d4
  have hpi₂ := Real.pi_lt_d4
  have hN : (2 : Int).toNat = 2 := rfl
  have hval : -(10 * (4/3) * Real.pi * 0.001) / 0.81 = -(Real.pi * (4/243)) := by
    norm_num
    ring
  have hmag : magnitude (-(10 * (4/3) * Real.pi * 0.001) / 0.81) 0 0 = Real.pi * (4/243) := by
    rw [magnitude_along_x, hval, abs_neg, abs_of_pos (by positivity)]
  refine ⟨?_, ?_,
    { planet ℝ with ax := -(10 * (4/3) * Real.pi * 0.001) / 0.81, ay := 0, az := 0 },
    ?_, ?_, rfl, rfl, rfl, ?_, ?_, ?_⟩
  · simp only [planet]; norm_num
  · rw [squared_distance_planet_center]; norm_num
  · apply List.ext_getElem?
    intro j
    rw [getElem?_sphere_force exactMath (example_sim ℝ) (sphere ℝ) [star ℝ, planet ℝ] 2
      0.1 10.0 0.1 0.0 0.0 rfl rfl rfl rfl rfl j, hN]
    match j with
    | 0 =>
      rw [if_pos (by decide), List.getElem?_cons_zero, Option.map_some',
        sphere_iteration_of_absent _ _ _ _ _ _ _ _ _ (star_not_enabled ℝ)]
      rfl
    | 1 =>
      rw [if_pos (by decide), List.getElem?_cons_succ, List.getElem?_cons_zero,
        Option.map_some', hq]
      rfl
    | (k + 2) => simp
  · simp [same_outside_acceleration]
  · show -(10 * (4/3) * Real.pi * 0.001) / 0.81 < (0:ℝ)
    rw [hval]
    linarith [Real.pi_pos]
  · show (0.0517 : ℝ) < magnitude (-(10 * (4/3) * Real.pi * 0.001) / 0.81) 0 0
    rw [hmag]
    norm_num at hpi₁ ⊢
    linarith
  · show magnitude (-(10 * (4/3) * Real.pi * 0.001) / 0.81) 0 0 < (0.0518 : ℝ)
    rw [hmag]
    norm_num at hpi₂ ⊢
    linarith

/-! ## One body for all arrays -/

section Uniform

variable {α : Type} [Add α] [Sub α] [Mul α] [Div α] [Neg α] [LT α]
  [DecidableRel (fun a b : α => a < b)] [OfScientific α]

/-- For a given simulation and force, the point-mass evaluator is the identity on
every array, or it is the loop with one and the same body on every array. -/
theorem point_mass_force_uniform (lm : Libm α) (sim : reb_simulation α)
    (force : rebx_force α) :
    (∀ (particles : List (reb_particle α)) (N : Int),
      rebx_external_point_mass_force lm sim force particles N = particles) ∨
    ∃ M sx sy sz,
      rebx_get_param force.ap "ext_M" = some M ∧
      rebx_get_param force.ap "ext_x" = some sx ∧
      rebx_get_param force.ap "ext_y" = some sy ∧
      rebx_get_param force.ap "ext_z" = some sz ∧
      ∀ (particles : List (reb_particle α)) (N : Int),
        rebx_external_point_mass_force lm sim force particles N =
          for_each_particle (point_mass_iteration lm sim.G M sx sy sz) particles N := by
  unfold rebx_external_point_mass_force rebx_calculate_point_mass_force
  cases rebx_get_param force.ap "ext_M" <;> cases rebx_get_param force.ap "ext_x" <;>
    cases rebx_get_param force.ap "ext_y" <;> cases rebx_get_param force.ap "ext_z" <;>
    simp

theorem sphere_force_uniform (lm : Libm α) (sim : reb_simulation α)
    (force : rebx_force α) :
    (∀ (particles : List (reb_particle α)) (N : Int),
      rebx_sphere_force lm sim force particles N = particles) ∨
    ∃ rad rho cx cy cz,
      rebx_get_param force.ap "rad" = some rad ∧
      rebx_get_param force.ap "rho" = some rho ∧
      rebx_get_param force.ap "x_cen" = some cx ∧
      rebx_get_param force.ap "y_cen" = some cy ∧
      rebx_get_param force.ap "z_cen" = some cz ∧
      ∀ (particles : List (reb_particle α)) (N : Int),
        rebx_sphere_force lm sim force particles N =
          for_each_particle
            (sphere_iteration lm sim.G rad (rho * 4.0/3.0 * lm.M_PI * (rad*rad*rad))
              (rad*rad*rad) cx cy cz)
            particles N := by
  unfold rebx_sphere_force rebx_calculate_sphere_force
  cases rebx_get_param force.ap "rad" <;> cases rebx_get_param force.ap "rho" <;>
    cases rebx_get_param force.ap "x_cen" <;> cases rebx_get_param force.ap "y_cen" <;>
    cases rebx_get_param force.ap "z_cen" <;> simp

/-- The entry at an index below `N` after the loop is the entry after the loop
on the one-element array. -/
theorem for_each_particle_singleton (body : reb_particle α → reb_particle α)
    (particles : List (reb_particle α)) (N : Int) (i : Nat) (p : reb_particle α)
    (hi : (i : Int) < N) (hp : particles[i]? = some p) :
    (for_each_particle body particles N)[i]? = (for_each_particle body [p] 1)[0]? := by
  have hi' : i < N.toNat := by omega
  rw [getElem?_for_each_particle, getElem?_for_each_particle, if_pos hi', hp]
  rfl

/-- C11. Per-particle independence: for an index `i` below `N`, the entry `i` of
the array returned by `rebx_external_point_mass_force` and by `rebx_sphere_force`
is the entry returned by the same evaluator on the one-element array that holds
particle `i` alone.  In particular, with a complete sphere configuration an
enabled particle gets the interior prefactor `-G·M/R3` exactly when its own
`r2 < rad·rad` and the exterior prefactor `-G·M·pow(r2, -1.5)` otherwise,
whatever the other particles and the order of the array are. -/
theorem C11_per_particle_independence (lm : Libm α) (sim : reb_simulation α)
    (force : rebx_force α) (particles : List (reb_particle α)) (N : Int) (i : Nat)
    (p : reb_particle α) (hi : (i : Int) < N) (hp : particles[i]? = some p) :
    (rebx_external_point_mass_force lm sim force particles N)[i]? =
      (rebx_external_point_mass_force lm sim force [p] 1)[0]? ∧
    (rebx_sphere_force lm sim force particles N)[i]? =
      (rebx_sphere_force lm sim force [p] 1)[0]? ∧
    ∀ rad rho cx cy cz,
      rebx_get_param force.ap "rad" = some rad →
      rebx_get_param force.ap "rho" = some rho →
      rebx_get_param force.ap "x_cen" = some cx →
      rebx_get_param force.ap "y_cen" = some cy →
      rebx_get_param force.ap "z_cen" = some cz →
      rebx_get_param p.ap "ext_enable" ≠ none →
      ∃ q, (rebx_sphere_force lm sim force particles N)[i]? = some q ∧
        same_outside_acceleration p q ∧
        (squared_distance p cx cy cz < rad*rad →
          q.ax = p.ax + -sim.G * (rho * 4.0/3.0 * lm.M_PI * (rad*rad*rad)) / (rad*rad*rad) *
            (p.x - cx) ∧
          q.ay = p.ay + -sim.G * (rho * 4.0/3.0 * lm.M_PI * (rad*rad*rad)) / (rad*rad*rad) *
            (p.y - cy) ∧
          q.az = p.az + -sim.G * (rho * 4.0/3.0 * lm.M_PI * (rad*rad*rad)) / (rad*rad*rad) *
            (p.z - cz)) ∧
        (¬ squared_distance p cx cy cz < rad*rad →
          q.ax = p.ax + -sim.G * (rho * 4.0/3.0 * lm.M_PI * (rad*rad*rad)) *
            lm.pow (squared_distance p cx cy cz) (-1.5) * (p.x - cx) ∧
          q.ay = p.ay + -sim.G * (rho * 4.0/3.0 * lm.M_PI * (rad*rad*rad)) *
            lm.pow (squared_distance p cx cy cz) (-1.5) * (p.y - cy) ∧
          q.az = p.az + -sim.G * (rho * 4.0/3.0 * lm.M_PI * (rad*rad*rad)) *
            lm.pow (squared_distance p cx cy cz) (-1.5) * (p.z - cz)) := by
  have hi' : i < N.toNat := by omega
  refine ⟨?_, ?_, ?_⟩
  · rcases point_mass_force_uniform lm sim force with e | ⟨M, x, y, z, -, -, -, -, e⟩
    · rw [e, e, hp]; rfl
    · rw [e, e]; exact for_each_particle_singleton _ particles N i p hi hp
  · rcases sphere_force_uniform lm sim force with e | ⟨a, b, x, y, z, -, -, -, -, -, e⟩
    · rw [e, e, hp]; rfl
    · rw [e, e]; exact for_each_particle_singleton _ particles N i p hi hp
  · intro rad rho cx cy cz hrad hrho hcx hcy hcz hen
    refine ⟨sphere_iteration lm sim.G rad (rho * 4.0/3.0 * lm.M_PI * (rad*rad*rad))
      (rad*rad*rad) cx cy cz p, ?_, sphere_iteration_frame _ _ _ _ _ _ _ _ p, ?_, ?_⟩
    · rw [getElem?_sphere_force lm sim force particles N rad rho cx cy cz
        hrad hrho hcx hcy hcz i, if_pos hi', hp, Option.map_some']
    · intro h
      rw [sphere_iteration_of_present _ _ _ _ _ _ _ _ p hen]
      simp only [if_pos h, and_self]
    · intro h
      rw [sphere_iteration_of_present _ _ _ _ _ _ _ _ p hen]
      simp only [if_neg h, and_self]

end Uniform

section Presence

variable {α : Type} [Add α] [Sub α] [Mul α] [Div α] [Neg α] [LT α]
  [DecidableRel (fun a b : α => a < b)] [OfScientific α]

theorem with_enable_present (value : Int) (p : reb_particle α) :
    rebx_get_param (with_enable value p).ap "ext_enable" ≠ none := by
  simp [with_enable, rebx_get_param, List.lookup]

theorem acceleration_point_mass_with_enable (lm : Libm α) (G M sx sy sz : α)
    (v w : Int) (p : reb_particle α) :
    acceleration (point_mass_iteration lm G M sx sy sz (with_enable v p)) =
      acceleration (point_mass_iteration lm G M sx sy sz (with_enable w p)) := by
  rw [point_mass_iteration_of_present _ _ _ _ _ _ _ (with_enable_present v p),
    point_mass_iteration_of_present _ _ _ _ _ _ _ (with_enable_present w p)]
  rfl

theorem acceleration_sphere_with_enable (lm : Libm α) (G rad M R3 cx cy cz : α)
    (v w : Int) (p : reb_particle α) :
    acceleration (sphere_iteration lm G rad M R3 cx cy cz (with_enable v p)) =
      acceleration (sphere_iteration lm G rad M R3 cx cy cz (with_enable w p)) := by
  rw [sphere_iteration_of_present _ _ _ _ _ _ _ _ _ (with_enable_present v p),
    sphere_iteration_of_present _ _ _ _ _ _ _ _ _ (with_enable_present w p)]
  rfl

/-- Two arrays that differ in one entry, by the value stored under `ext_enable`,
have the same accelerations after a loop whose body does not look at that
value. -/
theorem map_acceleration_for_each_particle (body : reb_particle α → reb_particle α)
    (hbody : ∀ (v w : Int) (p : reb_particle α),
      acceleration (body (with_enable v p)) = acceleration (body (with_enable w p)))
    (particles : List (reb_particle α)) (N : Int) (i : Nat) (p : reb_particle α)
    (v w : Int) :
    (for_each_particle body (particles.set i (with_enable v p)) N).map acceleration =
      (for_each_particle body (particles.set i (with_enable w p)) N).map acceleration := by
  apply List.ext_getElem?
  intro j
  simp only [List.getElem?_map, getElem?_for_each_particle, List.getElem?_set]
  by_cases hij : i = j
  · subst hij
    by_cases hlen : i < particles.length
    · by_cases hN : i < N.toNat
      · simp [hlen, hN, hbody v w p]
      · simp [hlen, hN, acceleration, with_enable]
    · simp [hlen]
  · simp [hij]

/-- C12. Enable flag is presence-only: two particle arrays that differ only in the
integer stored under `ext_enable` on one particle (`v` in one array, `w` in the
other) have the same accelerations `(ax, ay, az)` in every entry after
`rebx_external_point_mass_force` and after `rebx_sphere_force`; in particular
the value `0` accelerates the particle exactly like the value `1`. -/
theorem C12_enable_flag_presence_only (lm : Libm α) (sim : reb_simulation α)
    (force : rebx_force α) (particles : List (reb_particle α)) (N : Int) (i : Nat)
    (p : reb_particle α) (v w : Int) :
    (rebx_external_point_mass_force lm sim force
        (particles.set i (with_enable v p)) N).map acceleration =
      (rebx_external_point_mass_force lm sim force
        (particles.set i (with_enable w p)) N).map acceleration ∧
    (rebx_sphere_force lm sim force (particles.set i (with_enable v p)) N).map acceleration =
      (rebx_sphere_force lm sim force (particles.set i (with_enable w p)) N).map
        acceleration := by
  have hid : (particles.set i (with_enable v p)).map acceleration =
      (particles.set i (with_enable w p)).map acceleration := by
    rw [List.map_set, List.map_set]
    rfl
  constructor
  · rcases point_mass_force_uniform lm sim force with e | ⟨M, x, y, z, -, -, -, -, e⟩
    · rw [e, e]; exact hid
    · rw [e, e]
      exact map_acceleration_for_each_particle _
        (acceleration_point_mass_with_enable lm sim.G M x y z) particles N i p v w
  · rcases sphere_force_uniform lm sim force with e | ⟨a, b, x, y, z, -, -, -, -, -, e⟩
    · rw [e, e]; exact hid
    · rw [e, e]
      exact map_acceleration_for_each_particle _
        (acceleration_sphere_with_enable lm sim.G _ _ _ x y z) particles N i p v w

end Presence

/-- C11, witness: an interior particle at `(0.3, 0, 0)` next to the exterior
planet at `(1, 0, 0)`, for a sphere of radius `0.5` centered at `(0.1, 0, 0)`. -/
theorem C11_per_particle_independence_witness :
    ((0 : Nat) : Int) < 2 ∧
    ([planet_at ℝ 0.3, planet ℝ])[0]? = some (planet_at ℝ 0.3) ∧
    (rebx_sphere_force exactMath (example_sim ℝ) (sphere_with ℝ 0.5 10.0)
        [planet_at ℝ 0.3, planet ℝ] 2)[0]? =
      (rebx_sphere_force exactMath (example_sim ℝ) (sphere_with ℝ 0.5 10.0)
        [planet_at ℝ 0.3] 1)[0]? :=
  ⟨by decide, rfl,
    (C11_per_particle_independence exactMath (example_sim ℝ) (sphere_with ℝ 0.5 10.0)
      [planet_at ℝ 0.3, planet ℝ] 2 0 (planet_at ℝ 0.3) (by decide) rfl).2.1⟩

/-! ## The documentation blocks against the code -/

theorem bare_planet_not_enabled :
    rebx_get_param (bare_planet ℝ).ap "ext_enable" = none := rfl

/-- The enabled planet under the unit point mass at the origin. -/
theorem unit_point_mass_on_planet :
    rebx_external_point_mass_force exactMath (example_sim ℝ) (unit_point_mass ℝ)
        [planet ℝ] 1 = [{ planet ℝ with ax := -1 }] := by
  apply List.ext_getElem?
  intro j
  rw [getElem?_point_mass_force exactMath (example_sim ℝ) (unit_point_mass ℝ) [planet ℝ] 1
    1.0 0.0 0.0 0.0 rfl rfl rfl rfl j]
  have hN : (1 : Int).toNat = 1 := rfl
  rw [hN]
  match j with
  | 0 =>
    rw [if_pos (by decide), List.getElem?_cons_zero, Option.map_some',
      point_mass_iteration_of_present _ _ _ _ _ _ _ (planet_enabled ℝ),
      squared_distance_planet_origin]
    simp [exactMath, example_sim, planet]
    norm_num
  | (k + 1) => simp

/-- C13. Evaluation at the failing input: the documentation blocks list no
particle parameter, yet with complete effect parameters the planet without any
attached parameter, at distance `1` from a unit point mass and outside the
sphere of `problem.c`, comes back unchanged from both evaluators, while the same
planet carrying `ext_enable` gets `ax = -1` from the point mass. -/
theorem C13_no_particle_parameter_evaluated :
    (bare_planet ℝ).ap = [] ∧
    rebx_external_point_mass_force exactMath (example_sim ℝ) (unit_point_mass ℝ)
        [bare_planet ℝ] 1 = [bare_planet ℝ] ∧
    rebx_sphere_force exactMath (example_sim ℝ) (sphere ℝ) [bare_planet ℝ] 1 =
      [bare_planet ℝ] ∧
    rebx_external_point_mass_force exactMath (example_sim ℝ) (unit_point_mass ℝ)
        [planet ℝ] 1 = [{ planet ℝ with ax := -1 }] := by
  refine ⟨rfl, ?_, ?_, unit_point_mass_on_planet⟩
  · apply List.ext_getElem?
    intro j
    rw [getElem?_point_mass_force exactMath (example_sim ℝ) (unit_point_mass ℝ)
      [bare_planet ℝ] 1 1.0 0.0 0.0 0.0 rfl rfl rfl rfl j]
    match j with
    | 0 =>
      rw [List.getElem?_cons_zero, Option.map_some',
        point_mass_iteration_of_absent _ _ _ _ _ _ _ bare_planet_not_enabled, ite_self]
    | (k + 1) => simp
  · apply List.ext_getElem?
    intro j
    rw [getElem?_sphere_force exactMath (example_sim ℝ) (sphere ℝ)
      [bare_planet ℝ] 1 0.1 10.0 0.1 0.0 0.0 rfl rfl rfl rfl rfl j]
    match j with
    | 0 =>
      rw [List.getElem?_cons_zero, Option.map_some',
        sphere_iteration_of_absent _ _ _ _ _ _ _ _ _ bare_planet_not_enabled, ite_self]
    | (k + 1) => simp

/-- C14. Evaluation at the failing input: a force on which the documented names
`M_ext`, `x_ext`, `y_ext`, `z_ext` are set has no `ext_M`, so
`rebx_external_point_mass_force` returns the enabled planet unchanged, while the
same values under the names the code reads (`ext_M`, `ext_x`, `ext_y`, `ext_z`)
give `ax = -1`. -/
theorem C14_documented_names_evaluated :
    rebx_get_param (documented_point_mass ℝ).ap "M_ext" = some 1.0 ∧
    rebx_get_param (documented_point_mass ℝ).ap "ext_M" = none ∧
    rebx_external_point_mass_force exactMath (example_sim ℝ) (documented_point_mass ℝ)
        [planet ℝ] 1 = [planet ℝ] ∧
    rebx_external_point_mass_force exactMath (example_sim ℝ) (unit_point_mass ℝ)
        [planet ℝ] 1 = [{ planet ℝ with ax := -1 }] :=
  ⟨rfl, rfl, rfl, unit_point_mass_on_planet⟩

/-- The planet of `problem.c` after one iteration of the sphere loop of
`problem.c`. -/
theorem sphere_iteration_planet :
    sphere_iteration exactMath (example_sim ℝ).G 0.1
        (10.0 * 4.0/3.0 * exactMath.M_PI * (0.1*0.1*0.1)) (0.1*0.1*0.1) 0.1 0.0 0.0 (planet ℝ) =
      { planet ℝ with ax := -(10 * (4/3) * Real.pi * 0.001) / 0.81, ay := 0, az := 0 } := by
  have hext : (0.1 : ℝ)^2 ≤ squared_distance (planet ℝ) 0.1 0.0 0.0 := by
    rw [squared_distance_planet_center]; norm_num
  rw [sphere_iteration_exterior _ _ _ _ _ _ _ hext,
    point_mass_iteration_of_present _ _ _ _ _ _ _ (planet_enabled ℝ),
    squared_distance_planet_center]
  simp only [exactMath, rpow_081, example_sim, planet]
  norm_num
  ring

/-- C15. Evaluation at the failing input: the documented parameter `b_max` is
never read.  Whatever value is stored under `b_max`, `rebx_sphere_force` returns
what it returns without it; with `b_max = 0.5` the enabled planet, farther than
`0.5` both from the origin and from the center of the sphere, still gets the full
exterior contribution `ax = -M/0.81 ≠ 0`. -/
theorem C15_b_max_evaluated :
    (∀ b : ℝ,
      rebx_sphere_force exactMath (example_sim ℝ) (sphere_with_b_max ℝ b) [star ℝ, planet ℝ] 2 =
        rebx_sphere_force exactMath (example_sim ℝ) (sphere ℝ) [star ℝ, planet ℝ] 2) ∧
    (0.5 : ℝ)^2 < squared_distance (planet ℝ) 0.0 0.0 0.0 ∧
    (0.5 : ℝ)^2 < squared_distance (planet ℝ) 0.1 0.0 0.0 ∧
    ∃ q, (rebx_sphere_force exactMath (example_sim ℝ) (sphere_with_b_max ℝ 0.5)
        [star ℝ, planet ℝ] 2)[1]? = some q ∧
      q.ax = -(10 * (4/3) * Real.pi * 0.001) / 0.81 ∧ q.ax ≠ 0 := by
  refine ⟨fun b => rfl, ?_, ?_,
    { planet ℝ with ax := -(10 * (4/3) * Real.pi * 0.001) / 0.81, ay := 0, az := 0 },
    ?_, rfl, ?_⟩
  · rw [squared_distance_planet_origin]; norm_num
  · rw [squared_distance_planet_center]; norm_num
  · rw [getElem?_sphere_force exactMath (example_sim ℝ) (sphere_with_b_max ℝ 0.5)
      [star ℝ, planet ℝ] 2 0.1 10.0 0.1 0.0 0.0 rfl rfl rfl rfl rfl 1]
    have hN : (2 : Int).toNat = 2 := rfl
    rw [hN, if_pos (by decide), List.getElem?_cons_succ, List.getElem?_cons_zero,
      Option.map_some', sphere_iteration_planet]
  · show -(10 * (4/3) * Real.pi * 0.001) / 0.81 ≠ (0:ℝ)
    have hpi := Real.pi_pos
    apply ne_of_lt
    apply div_neg_of_neg_of_pos <;> norm_num
    exact hpi

section Central

variable {α : Type} [LinearOrderedField α]

end Central

/-! ## The sign of the radius -/

/-- The two radii `rad` and `-rad` select the same branch. -/
theorem neg_mul_self_neg (rad : ℝ) : -rad * -rad = rad * rad := by ring

/-- The interior result does not change when `rad` is replaced by `-rad`. -/
theorem sphere_iteration_neg_rad_interior (lm : Libm ℝ) (G rad rho cx cy cz : ℝ)
    (p : reb_particle ℝ) (hin : squared_distance p cx cy cz < rad*rad) :
    sphere_iteration lm G (-rad) (rho * 4.0/3.0 * lm.M_PI * (-rad * -rad * -rad))
        (-rad * -rad * -rad) cx cy cz p =
      sphere_iteration lm G rad (rho * 4.0/3.0 * lm.M_PI * (rad*rad*rad))
        (rad*rad*rad) cx cy cz p := by
  have hin' : squared_distance p cx cy cz < -rad * -rad := by rwa [neg_mul_self_neg]
  have hpre : -G * (rho * 4.0/3.0 * lm.M_PI * (-rad * -rad * -rad)) / (-rad * -rad * -rad) =
      -G * (rho * 4.0/3.0 * lm.M_PI * (rad*rad*rad)) / (rad*rad*rad) := by
    have e : -rad * -rad * -rad = -(rad*rad*rad) := by ring
    rw [e, mul_neg, mul_neg, neg_div_neg_eq]
  cases hen : rebx_get_param p.ap "ext_enable" with
  | none =>
    rw [sphere_iteration_of_absent _ _ _ _ _ _ _ _ _ hen,
      sphere_iteration_of_absent _ _ _ _ _ _ _ _ _ hen]
  | some v =>
    have hen' : rebx_get_param p.ap "ext_enable" ≠ none := by rw [hen]; exact Option.some_ne_none v
    rw [sphere_iteration_of_present _ _ _ _ _ _ _ _ _ hen',
      sphere_iteration_of_present _ _ _ _ _ _ _ _ _ hen']
    simp only [if_pos hin, if_pos hin', hpre]

/-- The exterior contribution is negated when `rad` is replaced by `-rad`. -/
theorem sphere_iteration_neg_rad_exterior (lm : Libm ℝ) (G rad rho cx cy cz : ℝ)
    (p : reb_particle ℝ) (hex : ¬ squared_distance p cx cy cz < rad*rad) :
    (sphere_iteration lm G (-rad) (rho * 4.0/3.0 * lm.M_PI * (-rad * -rad * -rad))
        (-rad * -rad * -rad) cx cy cz p).ax - p.ax =
      -((sphere_iteration lm G rad (rho * 4.0/3.0 * lm.M_PI * (rad*rad*rad))
        (rad*rad*rad) cx cy cz p).ax - p.ax) ∧
    (sphere_iteration lm G (-rad) (rho * 4.0/3.0 * lm.M_PI * (-rad * -rad * -rad))
        (-rad * -rad * -rad) cx cy cz p).ay - p.ay =
      -((sphere_iteration lm G rad (rho * 4.0/3.0 * lm.M_PI * (rad*rad*rad))
        (rad*rad*rad) cx cy cz p).ay - p.ay) ∧
    (sphere_iteration lm G (-rad) (rho * 4.0/3.0 * lm.M_PI * (-rad * -rad * -rad))
        (-rad * -rad * -rad) cx cy cz p).az - p.az =
      -((sphere_iteration lm G rad (rho * 4.0/3.0 * lm.M_PI * (rad*rad*rad))
        (rad*rad*rad) cx cy cz p).az - p.az) := by
  have hex' : ¬ squared_distance p cx cy cz < -rad * -rad := by rwa [neg_mul_self_neg]
  cases hen : rebx_get_param p.ap "ext_enable" with
  | none =>
    rw [sphere_iteration_of_absent _ _ _ _ _ _ _ _ _ hen,
      sphere_iteration_of_absent _ _ _ _ _ _ _ _ _ hen]
    simp
  | some v =>
    have hen' : rebx_get_param p.ap "ext_enable" ≠ none := by rw [hen]; exact Option.some_ne_none v
    rw [sphere_iteration_of_present _ _ _ _ _ _ _ _ _ hen',
      sphere_iteration_of_present _ _ _ _ _ _ _ _ _ hen']
    simp only [if_neg hex, if_neg hex', add_sub_self_left]
    refine ⟨?_, ?_, ?_⟩ <;> ring

/-- For `rad < 0`, `rho > 0`, `G > 0` the interior prefactor is negative and
the exterior prefactor is positive. -/
theorem prefactor_signs_neg_rad (G rad rho r2 : ℝ) (hrad : rad < 0) (hrho : 0 < rho)
    (hG : 0 < G) (hr : 0 < r2) :
    -G * (rho * 4.0/3.0 * exactMath.M_PI * (rad*rad*rad)) / (rad*rad*rad) < 0 ∧
    0 < -G * (rho * 4.0/3.0 * exactMath.M_PI * (rad*rad*rad)) * exactMath.pow r2 (-1.5) := by
  have hpi := Real.pi_pos
  have hR3 : rad*rad*rad < 0 := by
    have h2 : 0 < rad*rad := mul_pos_of_neg_of_neg hrad hrad
    exact mul_neg_of_pos_of_neg h2 hrad
  have hM : rho * 4.0/3.0 * exactMath.M_PI * (rad*rad*rad) < 0 := by
    rw [sphere_mass_eq]
    have e : rad^3 = rad*rad*rad := by ring
    rw [e]
    exact mul_neg_of_pos_of_neg (by positivity) hR3
  have hGM : 0 < -G * (rho * 4.0/3.0 * exactMath.M_PI * (rad*rad*rad)) := by
    rw [neg_mul]; exact neg_pos.mpr (mul_neg_of_pos_of_neg hG hM)
  have hpow : 0 < exactMath.pow r2 (-1.5) := Real.rpow_pos_of_pos hr _
  exact ⟨div_neg_of_pos_of_neg hGM hR3, mul_pos hGM hpow⟩

/-- C17. Sign of the radius: replacing `rad` by `-rad` in `rebx_sphere_force`
selects the same branch for every particle, leaves the result of the interior
branch (`r2 < rad²`) unchanged and negates every exterior contribution
(`r2 ≥ rad²`).  Hence for `rad < 0` with `rho > 0` and `G > 0` the vector added to
an enabled exterior particle at `r2 > 0` is a positive multiple of its
displacement from the center (it points away from the center), and the prefactor
is negative on the interior side and positive on the exterior side of
`r2 = rad²`: the added acceleration is discontinuous there. -/
theorem C17_sign_of_radius (sim : reb_simulation ℝ) (force force' : rebx_force ℝ)
    (particles : List (reb_particle ℝ)) (N : Int) (rad rho cx cy cz : ℝ)
    (hrad : rebx_get_param force.ap "rad" = some rad)
    (hrho : rebx_get_param force.ap "rho" = some rho)
    (hcx : rebx_get_param force.ap "x_cen" = some cx)
    (hcy : rebx_get_param force.ap "y_cen" = some cy)
    (hcz : rebx_get_param force.ap "z_cen" = some cz)
    (hrad' : rebx_get_param force'.ap "rad" = some (-rad))
    (hrho' : rebx_get_param force'.ap "rho" = some rho)
    (hcx' : rebx_get_param force'.ap "x_cen" = some cx)
    (hcy' : rebx_get_param force'.ap "y_cen" = some cy)
    (hcz' : rebx_get_param force'.ap "z_cen" = some cz)
    (i : Nat) (hi : (i : Int) < N) (p : reb_particle ℝ) (hp : particles[i]? = some p) :
    (squared_distance p cx cy cz < -rad * -rad ↔ squared_distance p cx cy cz < rad*rad) ∧
    (∀ lm : Libm ℝ, ∃ q q',
      (rebx_sphere_force lm sim force particles N)[i]? = some q ∧
      (rebx_sphere_force lm sim force' particles N)[i]? = some q' ∧
      (squared_distance p cx cy cz < rad*rad → q' = q) ∧
      (¬ squared_distance p cx cy cz < rad*rad →
        q'.ax - p.ax = -(q.ax - p.ax) ∧ q'.ay - p.ay = -(q.ay - p.ay) ∧
        q'.az - p.az = -(q.az - p.az))) ∧
    (rad < 0 → 0 < rho → 0 < sim.G →
      (rebx_get_param p.ap "ext_enable" ≠ none →
        ¬ squared_distance p cx cy cz < rad*rad → 0 < squared_distance p cx cy cz →
        ∃ (q : reb_particle ℝ) (k : ℝ),
          (rebx_sphere_force exactMath sim force particles N)[i]? = some q ∧ 0 < k ∧
          q.ax - p.ax = k * (p.x - cx) ∧ q.ay - p.ay = k * (p.y - cy) ∧
          q.az - p.az = k * (p.z - cz)) ∧
      (-sim.G * (rho * 4.0/3.0 * exactMath.M_PI * (rad*rad*rad)) / (rad*rad*rad) < 0 ∧
        0 < -sim.G * (rho * 4.0/3.0 * exactMath.M_PI * (rad*rad*rad)) *
          exactMath.pow (rad*rad) (-1.5))) := by
  have hi' : i < N.toNat := by omega
  refine ⟨by rw [neg_mul_self_neg], ?_, ?_⟩
  · intro lm
    refine ⟨sphere_iteration lm sim.G rad (rho * 4.0/3.0 * lm.M_PI * (rad*rad*rad))
        (rad*rad*rad) cx cy cz p,
      sphere_iteration lm sim.G (-rad) (rho * 4.0/3.0 * lm.M_PI * (-rad * -rad * -rad))
        (-rad * -rad * -rad) cx cy cz p, ?_, ?_, ?_, ?_⟩
    · rw [getElem?_sphere_force lm sim force particles N rad rho cx cy cz
        hrad hrho hcx hcy hcz i, if_pos hi', hp, Option.map_some']
    · rw [getElem?_sphere_force lm sim force' particles N (-rad) rho cx cy cz
        hrad' hrho' hcx' hcy' hcz' i, if_pos hi', hp, Option.map_some']
    · exact sphere_iteration_neg_rad_interior lm sim.G rad rho cx cy cz p
    · exact sphere_iteration_neg_rad_exterior lm sim.G rad rho cx cy cz p
  · intro hneg hrhopos hG
    refine ⟨?_, prefactor_signs_neg_rad sim.G rad rho (rad*rad) hneg hrhopos hG
      (mul_pos_of_neg_of_neg hneg hneg)⟩
    intro hen hex hr
    refine ⟨sphere_iteration exactMath sim.G rad
        (rho * 4.0/3.0 * exactMath.M_PI * (rad*rad*rad)) (rad*rad*rad) cx cy cz p,
      -sim.G * (rho * 4.0/3.0 * exactMath.M_PI * (rad*rad*rad)) *
        exactMath.pow (squared_distance p cx cy cz) (-1.5), ?_,
      (prefactor_signs_neg_rad sim.G rad rho _ hneg hrhopos hG hr).2, ?_⟩
    · rw [getElem?_sphere_force exactMath sim force particles N rad rho cx cy cz
        hrad hrho hcx hcy hcz i, if_pos hi', hp, Option.map_some']
    · rw [sphere_iteration_of_present _ _ _ _ _ _ _ _ _ hen]
      simp only [if_neg hex, add_sub_self_left, and_self]

/-- C17, witness: the sphere of `problem.c` with the radius `-0.1` and with the
radius `-(-0.1)`, and the enabled planet outside it. -/
theorem C17_sign_of_radius_witness :
    ((1 : Nat) : Int) < 2 ∧ ([star ℝ, planet ℝ])[1]? = some (planet ℝ) ∧
    ((-0.1 : ℝ) < 0 ∧ (0 : ℝ) < 10.0 ∧ 0 < (example_sim ℝ).G) ∧
    ∃ (q : reb_particle ℝ) (k : ℝ),
      (rebx_sphere_force exactMath (example_sim ℝ) (sphere_with ℝ (-0.1) 10.0)
        [star ℝ, planet ℝ] 2)[1]? = some q ∧ 0 < k ∧
      q.ax - (planet ℝ).ax = k * ((planet ℝ).x - 0.1) ∧
      q.ay - (planet ℝ).ay = k * ((planet ℝ).y - 0.0) ∧
      q.az - (planet ℝ).az = k * ((planet ℝ).z - 0.0) := by
  have hG : 0 < (example_sim ℝ).G := by simp only [example_sim]; norm_num
  have hex : ¬ squared_distance (planet ℝ) 0.1 0.0 0.0 < (-0.1 : ℝ) * -0.1 := by
    rw [squared_distance_planet_center]; norm_num
  have hr : 0 < squared_distance (planet ℝ) 0.1 0.0 0.0 := by
    rw [squared_distance_planet_center]; norm_num
  exact ⟨by decide, rfl, ⟨by norm_num, by norm_num, hG⟩,
    ((C17_sign_of_radius (example_sim ℝ) (sphere_with ℝ (-0.1) 10.0)
      (sphere_with ℝ (-(-0.1)) 10.0) [star ℝ, planet ℝ] 2 (-0.1) 10.0 0.1 0.0 0.0
      rfl rfl rfl rfl rfl rfl rfl rfl rfl rfl 1 (by decide) (planet ℝ) rfl).2.2
      (by norm_num) (by norm_num) hG).1 (planet_enabled ℝ) hex hr⟩

/-! ## The singular point of the point-mass law -/

theorem Dbl.mul_inf_isFinite (d : Dbl) (s : Bool) : (d * Dbl.inf s).isFinite = false := by
  cases d with
  | finite a =>
    show (Dbl.mul (Dbl.finite a) (Dbl.inf s)).isFinite = false
    by_cases h : a = 0 <;> simp [Dbl.mul, h, Dbl.isFinite]
  | inf t => rfl
  | nan => rfl

theorem Dbl.mul_zero_of_not_finite (d : Dbl) (h : d.isFinite = false) :
    d * Dbl.finite 0 = Dbl.nan := by
  cases d with
  | finite a => cases h
  | inf t => show Dbl.mul (Dbl.inf t) (Dbl.finite 0) = Dbl.nan; simp [Dbl.mul]
  | nan => rfl

theorem Dbl.add_nan (d : Dbl) : d + Dbl.nan = Dbl.nan := by
  cases d <;> rfl

theorem Dbl.finite_sub_self (a : ℚ) : Dbl.finite a - Dbl.finite a = Dbl.finite 0 := by
  show Dbl.add (Dbl.finite a) (Dbl.neg (Dbl.finite a)) = Dbl.finite 0
  simp [Dbl.add, Dbl.neg]

theorem Dbl.zero_mul_zero : Dbl.finite 0 * Dbl.finite 0 = Dbl.finite 0 := by
  show Dbl.mul (Dbl.finite 0) (Dbl.finite 0) = Dbl.finite 0
  simp [Dbl.mul]

theorem Dbl.zero_add_zero : Dbl.finite 0 + Dbl.finite 0 = Dbl.finite 0 := by
  show Dbl.add (Dbl.finite 0) (Dbl.finite 0) = Dbl.finite 0
  simp [Dbl.add]

/-- The squared distance of a particle from its own finite position is zero. -/
theorem squared_distance_coincident (p : reb_particle Dbl) (x y z : ℚ)
    (hx : p.x = Dbl.finite x) (hy : p.y = Dbl.finite y) (hz : p.z = Dbl.finite z) :
    squared_distance p (Dbl.finite x) (Dbl.finite y) (Dbl.finite z) = Dbl.finite 0 := by
  unfold squared_distance
  rw [hx, hy, hz, Dbl.finite_sub_self, Dbl.finite_sub_self, Dbl.finite_sub_self,
    Dbl.zero_mul_zero, Dbl.zero_add_zero, Dbl.zero_add_zero]

/-- C16. Unguarded singularity: in the arithmetic of `Dbl` (IEEE special values)
and for a `pow` with `pow(0, -1.5) = +∞`, `rebx_external_point_mass_force`
performs no check on `r2`: for an enabled particle exactly coincident with the
point source (`r2 = 0`) the prefactor `-G·M·pow(r2, -1.5)` is not finite (it is
infinite when `G·M` is finite and not zero, NaN when `G·M` is zero), and the
particle's `ax`, `ay`, `az` are NaN after the call. -/
theorem C16_unguarded_singularity (lm : Libm Dbl)
    (hpow : lm.pow (Dbl.finite 0) (-1.5) = Dbl.inf false)
    (sim : reb_simulation Dbl) (force : rebx_force Dbl)
    (particles : List (reb_particle Dbl)) (N : Int) (M : Dbl) (x y z : ℚ)
    (hM : rebx_get_param force.ap "ext_M" = some M)
    (hx : rebx_get_param force.ap "ext_x" = some (Dbl.finite x))
    (hy : rebx_get_param force.ap "ext_y" = some (Dbl.finite y))
    (hz : rebx_get_param force.ap "ext_z" = some (Dbl.finite z))
    (i : Nat) (hi : (i : Int) < N) (p : reb_particle Dbl) (hp : particles[i]? = some p)
    (hen : rebx_get_param p.ap "ext_enable" ≠ none)
    (hc : p.x = Dbl.finite x ∧ p.y = Dbl.finite y ∧ p.z = Dbl.finite z) :
    squared_distance p (Dbl.finite x) (Dbl.finite y) (Dbl.finite z) = Dbl.finite 0 ∧
    (-sim.G * M * lm.pow (squared_distance p (Dbl.finite x) (Dbl.finite y) (Dbl.finite z))
      (-1.5)).isFinite = false ∧
    (∀ g m : ℚ, sim.G = Dbl.finite g → M = Dbl.finite m → g * m ≠ 0 →
      ∃ s, -sim.G * M *
        lm.pow (squared_distance p (Dbl.finite x) (Dbl.finite y) (Dbl.finite z)) (-1.5) =
          Dbl.inf s) ∧
    ∃ q, (rebx_external_point_mass_force lm sim force particles N)[i]? = some q ∧
      q.ax = Dbl.nan ∧ q.ay = Dbl.nan ∧ q.az = Dbl.nan ∧
      q.ax.isFinite = false ∧ q.ay.isFinite = false ∧ q.az.isFinite = false := by
  have hi' : i < N.toNat := by omega
  obtain ⟨hpx, hpy, hpz⟩ := hc
  have hr2 := squared_distance_coincident p x y z hpx hpy hpz
  have hpre : (-sim.G * M * lm.pow (squared_distance p (Dbl.finite x) (Dbl.finite y)
      (Dbl.finite z)) (-1.5)).isFinite = false := by
    rw [hr2, hpow]; exact Dbl.mul_inf_isFinite _ _
  refine ⟨hr2, hpre, ?_, point_mass_iteration lm sim.G M (Dbl.finite x) (Dbl.finite y)
    (Dbl.finite z) p, ?_, ?_⟩
  · intro g m hg hm hgm
    rw [hr2, hpow, hg, hm]
    show ∃ s, Dbl.mul (Dbl.mul (Dbl.neg (Dbl.finite g)) (Dbl.finite m)) (Dbl.inf false) =
      Dbl.inf s
    have hne : -g * m ≠ 0 := by rw [neg_mul]; exact neg_ne_zero.mpr hgm
    exact ⟨decide (-g * m < 0) != false, by simp only [Dbl.neg, Dbl.mul, if_neg hne]⟩
  · rw [getElem?_point_mass_force lm sim force particles N M _ _ _ hM hx hy hz i,
      if_pos hi', hp, Option.map_some']
  · rw [point_mass_iteration_of_present _ _ _ _ _ _ _ hen]
    simp only [hpx, hpy, hpz, Dbl.finite_sub_self]
    rw [Dbl.mul_zero_of_not_finite _ hpre, Dbl.add_nan, Dbl.add_nan, Dbl.add_nan]
    exact ⟨rfl, rfl, rfl, rfl, rfl, rfl⟩

theorem singular_libm_pow_zero :
    singular_libm.pow (Dbl.finite 0) (-1.5) = Dbl.inf false := by
  have h : Dbl.lt (-1.5) (Dbl.finite 0) = true := by
    show Dbl.lt (Dbl.neg (Dbl.finite (1.5 : ℚ))) (Dbl.finite 0) = true
    simp only [Dbl.neg, Dbl.lt, decide_eq_true_eq]
    norm_num
  simp only [singular_libm, h, and_self, if_true]

/-- C16, witness: an enabled particle at the origin, where the unit point mass
sits, next to the star. -/
theorem C16_unguarded_singularity_witness :
    singular_libm.pow (Dbl.finite 0) (-1.5) = Dbl.inf false ∧
    ((planet_at Dbl 0.0).x = Dbl.finite 0.0 ∧ (planet_at Dbl 0.0).y = Dbl.finite 0.0 ∧
      (planet_at Dbl 0.0).z = Dbl.finite 0.0) ∧
    rebx_get_param (planet_at Dbl 0.0).ap "ext_enable" ≠ none ∧
    ∃ q, (rebx_external_point_mass_force singular_libm (example_sim Dbl) (unit_point_mass Dbl)
        [star Dbl, planet_at Dbl 0.0] 2)[1]? = some q ∧
      q.ax = Dbl.nan ∧ q.ay = Dbl.nan ∧ q.az = Dbl.nan := by
  have hen : rebx_get_param (planet_at Dbl 0.0).ap "ext_enable" ≠ none := planet_enabled Dbl
  obtain ⟨-, -, -, q, hq, hax, hay, haz, -⟩ :=
    C16_unguarded_singularity singular_libm singular_libm_pow_zero (example_sim Dbl)
      (unit_point_mass Dbl) [star Dbl, planet_at Dbl 0.0] 2 1.0 0.0 0.0 0.0
      rfl rfl rfl rfl 1 (by decide) (planet_at Dbl 0.0) rfl hen ⟨rfl, rfl, rfl⟩
  exact ⟨singular_libm_pow_zero, ⟨rfl, rfl, rfl⟩, hen, q, hq, hax, hay, haz⟩

/-! ## The center of the sphere -/

theorem Dbl.finite_mul_finite (a b : ℚ) :
    Dbl.finite a * Dbl.finite b = Dbl.finite (a * b) := rfl

theorem Dbl.finite_div_finite (a b : ℚ) (hb : b ≠ 0) :
    Dbl.finite a / Dbl.finite b = Dbl.finite (a / b) := by
  show Dbl.div (Dbl.finite a) (Dbl.finite b) = Dbl.finite (a / b)
  simp only [Dbl.div, if_neg hb]

theorem Dbl.neg_finite (a : ℚ) : -Dbl.finite a = Dbl.finite (-a) := rfl

theorem Dbl.add_finite_zero (d : Dbl) : d + Dbl.finite 0 = d := by
  cases d with
  | finite a => show Dbl.add (Dbl.finite a) (Dbl.finite 0) = Dbl.finite a; simp [Dbl.add]
  | inf s => rfl
  | nan => rfl

theorem Dbl.finite_lt_finite (a b : ℚ) (h : a < b) : Dbl.finite a < Dbl.finite b := by
  show Dbl.lt (Dbl.finite a) (Dbl.finite b) = true
  simp only [Dbl.lt, decide_eq_true_eq]
  exact h

theorem Dbl.four_thirds : (4.0 : Dbl) = Dbl.finite 4 ∧ (3.0 : Dbl) = Dbl.finite 3 := by
  constructor
  · show Dbl.finite (4.0 : ℚ) = Dbl.finite 4
    norm_num
  · show Dbl.finite (3.0 : ℚ) = Dbl.finite 3
    norm_num

/-- With finite parameters and `rad ≠ 0` the interior prefactor is a finite
number. -/
theorem interior_prefactor_finite (pi g r d : ℚ) (hr : r ≠ 0) :
    -Dbl.finite g *
        (Dbl.finite d * 4.0/3.0 * Dbl.finite pi * (Dbl.finite r * Dbl.finite r * Dbl.finite r)) /
        (Dbl.finite r * Dbl.finite r * Dbl.finite r) =
      Dbl.finite (-g * (d * 4 / 3 * pi * (r * r * r)) / (r * r * r)) := by
  have h3 : (3 : ℚ) ≠ 0 := by norm_num
  have hr3 : r * r * r ≠ 0 := mul_ne_zero (mul_ne_zero hr hr) hr
  rw [Dbl.four_thirds.1, Dbl.four_thirds.2, Dbl.neg_finite]
  simp only [Dbl.finite_mul_finite]
  rw [Dbl.finite_div_finite _ _ h3]
  simp only [Dbl.finite_mul_finite]
  rw [Dbl.finite_div_finite _ _ hr3]

/-- C18 (as amended). No singularity at the sphere center for finite parameters:
in the arithmetic of `Dbl` (where finite numbers neither overflow nor underflow),
for a finite `rad ≠ 0`, finite `rho`, `G`, `M_PI` and a finite center, an enabled
particle located exactly at `(x_cen, y_cen, z_cen)` has `r2 = 0 < rad·rad`, so
`rebx_sphere_force` takes the interior branch, whose prefactor `-G·M/R3` is a
finite number, and returns the particle unchanged (zero contribution). -/
theorem C18_no_singularity_at_center (lm : Libm Dbl) (sim : reb_simulation Dbl)
    (force : rebx_force Dbl) (particles : List (reb_particle Dbl)) (N : Int)
    (pi g r d x y z : ℚ) (i : Nat) (p : reb_particle Dbl)
    (hpi : lm.M_PI = Dbl.finite pi) (hG : sim.G = Dbl.finite g)
    (hrad : rebx_get_param force.ap "rad" = some (Dbl.finite r))
    (hrho : rebx_get_param force.ap "rho" = some (Dbl.finite d))
    (hcx : rebx_get_param force.ap "x_cen" = some (Dbl.finite x))
    (hcy : rebx_get_param force.ap "y_cen" = some (Dbl.finite y))
    (hcz : rebx_get_param force.ap "z_cen" = some (Dbl.finite z))
    (hi : (i : Int) < N) (hp : particles[i]? = some p)
    (hen : rebx_get_param p.ap "ext_enable" ≠ none) (hne : r ≠ 0)
    (hc : p.x = Dbl.finite x ∧ p.y = Dbl.finite y ∧ p.z = Dbl.finite z) :
    squared_distance p (Dbl.finite x) (Dbl.finite y) (Dbl.finite z) = Dbl.finite 0 ∧
    squared_distance p (Dbl.finite x) (Dbl.finite y) (Dbl.finite z) <
      Dbl.finite r * Dbl.finite r ∧
    (-sim.G * (Dbl.finite d * 4.0/3.0 * lm.M_PI *
        (Dbl.finite r * Dbl.finite r * Dbl.finite r)) /
      (Dbl.finite r * Dbl.finite r * Dbl.finite r)).isFinite = true ∧
    (rebx_sphere_force lm sim force particles N)[i]? = some p := by
  have hi' : i < N.toNat := by omega
  obtain ⟨hpx, hpy, hpz⟩ := hc
  have hr2 := squared_distance_coincident p x y z hpx hpy hpz
  have hlt : squared_distance p (Dbl.finite x) (Dbl.finite y) (Dbl.finite z) <
      Dbl.finite r * Dbl.finite r := by
    rw [hr2, Dbl.finite_mul_finite]
    exact Dbl.finite_lt_finite _ _ (mul_self_pos.mpr hne)
  have hpre := interior_prefactor_finite pi g r d hne
  refine ⟨hr2, hlt, ?_, ?_⟩
  · rw [hG, hpi, hpre]; rfl
  · rw [getElem?_sphere_force lm sim force particles N (Dbl.finite r) (Dbl.finite d)
      (Dbl.finite x) (Dbl.finite y) (Dbl.finite z) hrad hrho hcx hcy hcz i, if_pos hi', hp,
      Option.map_some', sphere_iteration_of_present _ _ _ _ _ _ _ _ p hen]
    have hdx : p.x - Dbl.finite x = Dbl.finite 0 := by rw [hpx]; exact Dbl.finite_sub_self x
    have hdy : p.y - Dbl.finite y = Dbl.finite 0 := by rw [hpy]; exact Dbl.finite_sub_self y
    have hdz : p.z - Dbl.finite z = Dbl.finite 0 := by rw [hpz]; exact Dbl.finite_sub_self z
    simp only [if_pos hlt]
    rw [hG, hpi, hpre, hdx, hdy, hdz]
    simp only [Dbl.finite_mul_finite, mul_zero, Dbl.add_finite_zero]

theorem Dbl.mul_isFinite_left (d e : Dbl) (h : d.isFinite = false) :
    (d * e).isFinite = false := by
  show (Dbl.mul d e).isFinite = false
  cases d with
  | finite a => cases h
  | inf s =>
    cases e with
    | finite b => by_cases hb : b = 0 <;> simp [Dbl.mul, hb, Dbl.isFinite]
    | inf t => rfl
    | nan => rfl
  | nan => cases e <;> rfl

theorem Dbl.mul_isFinite_right (d e : Dbl) (h : e.isFinite = false) :
    (d * e).isFinite = false := by
  show (Dbl.mul d e).isFinite = false
  cases e with
  | finite b => cases h
  | inf t =>
    cases d with
    | finite a => by_cases ha : a = 0 <;> simp [Dbl.mul, ha, Dbl.isFinite]
    | inf s => rfl
    | nan => rfl
  | nan => cases d <;> rfl

theorem Dbl.div_isFinite_left (d e : Dbl) (h : d.isFinite = false) :
    (d / e).isFinite = false := by
  show (Dbl.div d e).isFinite = false
  cases d with
  | finite a => cases h
  | inf s => cases e <;> rfl
  | nan => cases e <;> rfl

theorem squared_distance_center_lt :
    squared_distance (planet_at Dbl 0.1) 0.1 0.0 0.0 < (0.1 : Dbl) * 0.1 := by
  have h := squared_distance_coincident (planet_at Dbl 0.1) 0.1 0.0 0.0 rfl rfl rfl
  have e : squared_distance (planet_at Dbl 0.1) 0.1 0.0 0.0 = Dbl.finite 0 := h
  rw [e]
  exact Dbl.finite_lt_finite _ _ (by norm_num)

/-- C18, witness: an enabled particle at the center `(0.1, 0, 0)` of the sphere of
`problem.c` (`rad = 0.1`, `rho = 10`, `G = 1`). -/
theorem C18_no_singularity_at_center_witness :
    (0.1 : ℚ) ≠ 0 ∧
    ((planet_at Dbl 0.1).x = Dbl.finite 0.1 ∧ (planet_at Dbl 0.1).y = Dbl.finite 0.0 ∧
      (planet_at Dbl 0.1).z = Dbl.finite 0.0) ∧
    rebx_get_param (planet_at Dbl 0.1).ap "ext_enable" ≠ none ∧
    (rebx_sphere_force singular_libm (example_sim Dbl) (sphere Dbl)
      [star Dbl, planet_at Dbl 0.1] 2)[1]? = some (planet_at Dbl 0.1) := by
  have hen : rebx_get_param (planet_at Dbl 0.1).ap "ext_enable" ≠ none := planet_enabled Dbl
  have hne : (0.1 : ℚ) ≠ 0 := by norm_num
  exact ⟨hne, ⟨rfl, rfl, rfl⟩, hen,
    (C18_no_singularity_at_center singular_libm (example_sim Dbl) (sphere Dbl)
      [star Dbl, planet_at Dbl 0.1] 2 (884279719003555 / 281474976710656) 1.0 0.1 10.0
      0.1 0.0 0.0 1 (planet_at Dbl 0.1) rfl rfl rfl rfl rfl rfl rfl (by decide) rfl hen hne
      ⟨rfl, rfl, rfl⟩).2.2.2⟩

/-- C18, counterexample: with `G = 1`, `rad = 0.1 ≠ 0` and the density
`rho = +∞`, the enabled particle at the center `(0.1, 0, 0)` takes the interior
branch (`r2 = 0 < rad·rad`), the prefactor `-G·M/R3` is not finite, its product
with the zero displacement is NaN, and `ax`, `ay`, `az` are NaN after the call
instead of the `0` they were. -/
theorem C18_counterexample :
    (0.1 : Dbl) ≠ Dbl.finite 0 ∧
    ((planet_at Dbl 0.1).x = 0.1 ∧ (planet_at Dbl 0.1).y = 0.0 ∧
      (planet_at Dbl 0.1).z = 0.0) ∧
    rebx_get_param (planet_at Dbl 0.1).ap "ext_enable" ≠ none ∧
    squared_distance (planet_at Dbl 0.1) 0.1 0.0 0.0 < (0.1 : Dbl) * 0.1 ∧
    ∃ q, (rebx_sphere_force singular_libm (example_sim Dbl) (sphere_with Dbl 0.1 (Dbl.inf false))
        [star Dbl, planet_at Dbl 0.1] 2)[1]? = some q ∧
      (q.ax = Dbl.nan ∧ q.ay = Dbl.nan ∧ q.az = Dbl.nan) ∧
      (planet_at Dbl 0.1).ax = Dbl.finite 0.0 ∧ q.ax ≠ (planet_at Dbl 0.1).ax := by
  have hen : rebx_get_param (planet_at Dbl 0.1).ap "ext_enable" ≠ none := planet_enabled Dbl
  have hrad : (0.1 : Dbl) ≠ Dbl.finite 0 := by
    show Dbl.finite (0.1 : ℚ) ≠ Dbl.finite 0
    intro h
    have h' := Dbl.finite.inj h
    norm_num at h'
  have hdx : (planet_at Dbl 0.1).x - 0.1 = Dbl.finite 0 := Dbl.finite_sub_self 0.1
  have hdy : (planet_at Dbl 0.1).y - 0.0 = Dbl.finite 0 := Dbl.finite_sub_self 0.0
  have hdz : (planet_at Dbl 0.1).z - 0.0 = Dbl.finite 0 := Dbl.finite_sub_self 0.0
  have hpre : (-(example_sim Dbl).G *
      (Dbl.inf false * 4.0/3.0 * singular_libm.M_PI * ((0.1 : Dbl) * 0.1 * 0.1)) /
      ((0.1 : Dbl) * 0.1 * 0.1)).isFinite = false :=
    Dbl.div_isFinite_left _ _ (Dbl.mul_isFinite_right _ _
      (Dbl.mul_isFinite_left _ _ (Dbl.mul_isFinite_left _ _
        (Dbl.div_isFinite_left _ _ (Dbl.mul_isFinite_left _ _ rfl)))))
  have hq : sphere_iteration singular_libm (example_sim Dbl).G 0.1
        (Dbl.inf false * 4.0/3.0 * singular_libm.M_PI * ((0.1 : Dbl) * 0.1 * 0.1))
        ((0.1 : Dbl) * 0.1 * 0.1) 0.1 0.0 0.0 (planet_at Dbl 0.1) =
      { planet_at Dbl 0.1 with ax := Dbl.nan, ay := Dbl.nan, az := Dbl.nan } := by
    rw [sphere_iteration_of_present _ _ _ _ _ _ _ _ _ hen]
    simp only [if_pos squared_distance_center_lt]
    rw [hdx, hdy, hdz, Dbl.mul_zero_of_not_finite _ hpre, Dbl.add_nan, Dbl.add_nan, Dbl.add_nan]
  refine ⟨hrad, ⟨rfl, rfl, rfl⟩, hen, squared_distance_center_lt,
    { planet_at Dbl 0.1 with ax := Dbl.nan, ay := Dbl.nan, az := Dbl.nan }, ?_,
    ⟨rfl, rfl, rfl⟩, rfl, ?_⟩
  · rw [getElem?_sphere_force singular_libm (example_sim Dbl)
      (sphere_with Dbl 0.1 (Dbl.inf false)) [star Dbl, planet_at Dbl 0.1] 2
      0.1 (Dbl.inf false) 0.1 0.0 0.0 rfl rfl rfl rfl rfl 1]
    have hN : (2 : Int).toNat = 2 := rfl
    rw [hN, if_pos (by decide), List.getElem?_cons_succ, List.getElem?_cons_zero,
      Option.map_some', hq]
  · intro h
    cases h

end Reboundx
